import Mathlib

/-!
Shallow embedding of the Astra V7 bonding-curve launchpad program
(contracts/programs/astra/src) and verification of its specification claims.

Machine integers are modelled as `Nat` with explicit bound checks mirroring
the Rust `checked_*` operations on `u64`/`u128`: a checked operation that
would exceed the type's range produces `AstraError.MathOverflow`, and
`saturating_sub` is Lean's truncated `Nat` subtraction.  Times are `Int`
(Rust `i64`).  Fallible code returns `Except AstraError`.
-/

namespace Astra

/-! ## Constants (constants.rs) -/

def GRADUATION_MARKET_CAP_USD : Nat := 42000

def MIN_SEED_USD : Nat := 40

def MAX_SEED_USD : Nat := 20000

def TOKENS_FOR_HOLDERS : Nat := 800000000

def TOKENS_FOR_LP : Nat := 200000000

def TOTAL_SUPPLY : Nat := 1000000000

def TOTAL_FEE_BPS : Nat := 100

def CREATOR_FEE_UNVERIFIED_BPS : Nat := 30

def CREATOR_FEE_VERIFIED_BPS : Nat := 50

def SELL_FEE_BPS : Nat := 0

def VESTING_DURATION_SECONDS : Int := 3628800

def LAUNCH_DURATION_SECONDS : Int := 604800

def MAX_BUY_LAMPORTS : Nat := 1000000000000

def BPS_DENOMINATOR : Nat := 10000

def MAX_PRICE_STALENESS_SECONDS : Int := 300

def CURVE_SLOPE : Nat := 781250

def CURVE_SCALE : Nat := 1000000000000

/-- Largest value of a Rust `u64`. -/
def U64_MAX : Nat := 18446744073709551615

/-- Largest value of a Rust `u128`. -/
def U128_MAX : Nat := 340282366920938463463374607431768211455

/-! ## Errors (errors.rs) -/

/-- Binary logarithm by repeated halving with an explicit iteration budget;
`log2fuel fuel n` equals `⌊log₂ n⌋` whenever `n < 2 ^ fuel` (each recursive
call halves `n`, so the budget is never exhausted; see `log2fuel_spec`). -/
def log2fuel : Nat → Nat → Nat
  | 0, _ => 0
  | fuel + 1, n => if n < 2 then 0 else log2fuel fuel (n / 2) + 1

/-- Floor of `log₂ n` for a `u128` value `n ≥ 1`. -/
def u128_log2 (n : Nat) : Nat := log2fuel 128 n

inductive AstraError where
  | ProtocolPaused
  | Unauthorized
  | VestingNotComplete
  | AlreadyGraduated
  | VestingNotStarted
  | NoSharesToClaim
  | NotGraduated
  | RefundModeAlreadyActive
  | RefundModeNotActive
  | RefundModeActive
  | LaunchNotExpired
  | InsufficientShares
  | SlippageExceeded
  | MathOverflow
  | AlreadyClaimed
  | NotCreator
  | InvalidCalculation
  | NoFeesToClaim
  | RefundPeriodActive
  | InsufficientFunds
  | LaunchNotEmpty
  | PriceOracleUnavailable
  | SeedAmountTooLow
  | SeedAmountTooHigh
deriving DecidableEq, Repr

/-! ## Curve engine (curve.rs) -/

/-- One Newton iteration step of `integer_sqrt`, with an explicit iteration
budget.  In the Rust source this is an unbounded `loop`; since `x` strictly
decreases on every iteration that does not return, the loop performs at most
`x` further iterations, so running with budget `fuel ≥ x` is exact (this is
proved below for every input, in `sqrtIter_eq_sqrt`). -/
def sqrtIter (n : Nat) : Nat → Nat → Nat
  | 0, x => x
  | fuel + 1, x =>
    let y := (x + n / x) / 2
    if x ≤ y then x else sqrtIter n fuel y

/-- Number of leading zero bits of `n` as a `u128` (for `1 ≤ n < 2^128`),
mirroring `u128::leading_zeros`. -/
def u128_leading_zeros (n : Nat) : Nat := 127 - u128_log2 n

/-- The bit-length-derived initial-guess exponent of `integer_sqrt`:
`shift = (128 - n.leading_zeros() + 1) / 2`. -/
def sqrt_shift (n : Nat) : Nat := (128 - u128_leading_zeros n + 1) / 2

/-- Integer square root using Newton's method with an overflow-safe initial
guess (curve.rs `integer_sqrt`). -/
def integer_sqrt (n : Nat) : Nat :=
  if n < 2 then n
  else
    let x0 := 2 ^ sqrt_shift n
    sqrtIter n x0 x0

/-- Variant of `sqrtIter` in which every u128 operation of the loop body is
bound-checked: the unchecked Rust additions `x + n / x` and the initial
`1u128 << shift` would overflow a `u128` exactly when this returns `none`. -/
def sqrtIterChecked (n : Nat) : Nat → Nat → Option Nat
  | 0, _ => none
  | fuel + 1, x =>
    if U128_MAX < x + n / x then none
    else
      let y := (x + n / x) / 2
      if x ≤ y then some x else sqrtIterChecked n fuel y

/-- Bound-checked variant of `integer_sqrt`; `none` marks an intermediate
u128 overflow. -/
def integer_sqrtChecked (n : Nat) : Option Nat :=
  if n < 2 then some n
  else
    if 128 ≤ sqrt_shift n then none
    else
      let x0 := 2 ^ sqrt_shift n
      sqrtIterChecked n x0 x0

/-- Cost in lamports to buy `shares_out` shares at `current_supply`
(curve.rs `buy_quote`), with every checked u128 step modelled.  The final
`checked_div` has the constant nonzero denominator `2 * CURVE_SCALE` and
cannot fail. -/
def buy_quote (shares_out current_supply : Nat) : Except AstraError Nat :=
  if shares_out = 0 then .ok 0
  else
    let s_current := current_supply
    if U128_MAX < s_current + shares_out then Except.error .MathOverflow
    else
      let s_new := s_current + shares_out
      if U128_MAX < s_new * s_new then Except.error .MathOverflow
      else if U128_MAX < s_current * s_current then Except.error .MathOverflow
      else if s_new * s_new < s_current * s_current then Except.error .MathOverflow
      else
        let delta_sq := s_new * s_new - s_current * s_current
        if U128_MAX < CURVE_SLOPE * delta_sq then Except.error .MathOverflow
        else
          let cost := CURVE_SLOPE * delta_sq / (2 * CURVE_SCALE)
          if U64_MAX < cost then Except.error .MathOverflow
          else .ok cost

/-- Shares received for `sol_amount` lamports at `current_supply`
(curve.rs `buy_return`).  `CURVE_SLOPE` is a nonzero constant so the
`checked_div` cannot fail. -/
def buy_return (sol_amount current_supply : Nat) : Except AstraError Nat :=
  if sol_amount = 0 then .ok 0
  else
    if U128_MAX < 2 * sol_amount then Except.error .MathOverflow
    else if U128_MAX < 2 * sol_amount * CURVE_SCALE then Except.error .MathOverflow
    else
      let term1 := 2 * sol_amount * CURVE_SCALE / CURVE_SLOPE
      if U128_MAX < current_supply * current_supply then Except.error .MathOverflow
      else if U128_MAX < term1 + current_supply * current_supply then Except.error .MathOverflow
      else
        let s_new := integer_sqrt (term1 + current_supply * current_supply)
        if s_new < current_supply then Except.error .MathOverflow
        else
          let shares := s_new - current_supply
          if U64_MAX < shares then Except.error .MathOverflow
          else .ok shares

/-- Proportional refund for selling shares (curve.rs `sell_return`):
`refund = shares_to_sell * user_basis / user_shares`, basis-proportional. -/
def sell_return (shares_to_sell user_shares user_basis : Nat) : Except AstraError Nat :=
  if shares_to_sell = 0 then .ok 0
  else if user_shares = 0 then Except.error .InvalidCalculation
  else
    if U128_MAX < shares_to_sell * user_basis then Except.error .MathOverflow
    else
      let refund := shares_to_sell * user_basis / user_shares
      if U64_MAX < refund then Except.error .MathOverflow
      else .ok refund

instance {α : Type} [DecidableEq α] : DecidableEq (Except AstraError α) := fun a b =>
  match a, b with
  | .ok x, .ok y => if h : x = y then isTrue (by rw [h]) else isFalse (by simp [h])
  | .error e, .error f => if h : e = f then isTrue (by rw [h]) else isFalse (by simp [h])
  | .ok _, .error _ => isFalse (by simp)
  | .error _, .ok _ => isFalse (by simp)

/-- Discriminator for a successful instruction result. -/
def isOkE {α : Type} : Except AstraError α → Bool
  | .ok _ => true
  | .error _ => false

/-! ## State (state/config.rs, creator_stats.rs, launch.rs, position.rs, vault.rs)

Identity fields (`Pubkey`s), PDA bumps and display metadata are account
wiring and are omitted; every arithmetic and lifecycle field is kept. -/

structure GlobalConfig where
  min_seed_lamports : Nat
  sol_price_usd : Nat
  price_last_updated : Int
  paused : Bool
  total_launches : Nat
deriving DecidableEq, Repr

/-- Model of `GlobalConfig::usd_to_lamports`: `lamports = usd * 1e9 / price`, `None`
when the cached price is zero.  The result is truncated to `u64` by the
source's `as u64` cast. -/
def usd_to_lamports (cfg : GlobalConfig) (usd_amount : Nat) : Option Nat :=
  if cfg.sol_price_usd = 0 then none
  else
    if U128_MAX < usd_amount * 1000000000 then none
    else some (usd_amount * 1000000000 / cfg.sol_price_usd % (U64_MAX + 1))

/-- Model of `GlobalConfig::is_price_stale`: the cached price is stale when its last
update is more than 300 seconds old. -/
def is_price_stale (cfg : GlobalConfig) (current_time : Int) : Bool :=
  decide (300 < current_time - cfg.price_last_updated)

structure CreatorStats where
  graduated_count : Nat
  total_fees_earned : Nat
  total_launches : Nat
deriving DecidableEq, Repr

/-- Model of `CreatorStats::is_verified`: at least one graduated launch. -/
def is_verified (stats : CreatorStats) : Bool := decide (0 < stats.graduated_count)

/-- Model of `CreatorStats::get_creator_fee_bps`: 50 bps when verified, 30 bps
otherwise. -/
def get_creator_fee_bps (stats : CreatorStats) : Nat :=
  if is_verified stats then CREATOR_FEE_VERIFIED_BPS else CREATOR_FEE_UNVERIFIED_BPS

structure Position where
  shares : Nat
  sol_basis : Nat
  locked_shares : Nat
  vested_shares_claimed : Nat
  has_claimed_tokens : Bool
  has_claimed_refund : Bool
  first_buy_at : Int
  last_updated_at : Int
deriving DecidableEq, Repr

/-- A just-initialized position account (all fields zeroed), as produced by
Anchor `init_if_needed` before the handler fills it in. -/
def freshPosition : Position :=
  { shares := 0, sol_basis := 0, locked_shares := 0, vested_shares_claimed := 0
    has_claimed_tokens := false, has_claimed_refund := false
    first_buy_at := 0, last_updated_at := 0 }

structure Launch where
  launch_id : Nat
  name : String
  symbol : String
  uri : String
  total_shares : Nat
  total_sol : Nat
  creator_seed_shares : Nat
  creator_seed_sol : Nat
  graduated : Bool
  refund_mode : Bool
  vesting_start : Option Int
  creator_claimed_shares : Nat
  created_at : Int
  graduated_at : Option Int
  refund_enabled_at : Option Int
  operation_in_progress : Bool
  creator_accrued_fees : Nat
  protocol_accrued_fees : Nat
  total_shares_at_graduation : Nat
deriving DecidableEq, Repr, Inhabited

structure Vault where
  lp_balance : Nat
  activated : Bool
  total_yield_collected : Nat
  total_creator_paid : Nat
  total_protocol_paid : Nat
  total_compounded : Nat
  total_caller_paid : Nat
  last_poke_at : Int
deriving DecidableEq, Repr

/-! ## Fee computation (buy.rs lines 83-111) -/

/-- Total 1% fee on a buy: `amount * TOTAL_FEE_BPS / BPS_DENOMINATOR`. -/
def buy_total_fee (amount : Nat) : Nat := amount * TOTAL_FEE_BPS / BPS_DENOMINATOR

/-- Creator portion of the buy fee at `creator_fee_bps`. -/
def buy_creator_fee (amount creator_fee_bps : Nat) : Nat :=
  amount * creator_fee_bps / BPS_DENOMINATOR

/-- Protocol portion of the buy fee: computed independently from the rate
`TOTAL_FEE_BPS - creator_fee_bps`, exactly as buy.rs does (it is not
computed as `total - creator`). -/
def buy_protocol_fee (amount creator_fee_bps : Nat) : Nat :=
  amount * (TOTAL_FEE_BPS - creator_fee_bps) / BPS_DENOMINATOR

/-! ## Instruction handlers

Each handler is the state transformation of the corresponding instruction:
Anchor account `constraint`s come first (they are checked before the handler
body runs), then the handler's own `require!`s and checked arithmetic, in
source order.  An `Except.error` result models a failed transaction, which
on the host ledger rolls back every account mutation, so errors carry no
state.  CPI transfers of lamports/tokens to/from external accounts are
out-of-scope side effects (§1 of the spec) and are omitted; every mutation
of Launch/Position/Vault/GlobalConfig fields is kept faithfully. -/

structure CreateLaunchArgs where
  name : String
  symbol : String
  uri : String
  seed_lamports : Nat
deriving DecidableEq, Repr

/-- Result state of `create_launch`: the new launch plus its position list
(the creator's position is the single live position at creation). -/
structure ProgState where
  launch : Launch
  positions : List Position
deriving DecidableEq, Repr

/-- create_launch.rs handler.  The config mutation (`total_launches + 1`)
does not affect launch/position state and is dropped. -/
def create_launch (cfg : GlobalConfig) (args : CreateLaunchArgs) (now : Int) :
    Except AstraError ProgState :=
  if cfg.paused then Except.error .ProtocolPaused
  else if args.name.length = 0 ∨ 50 < args.name.length then Except.error .InvalidCalculation
  else if args.symbol.length = 0 ∨ 10 < args.symbol.length then Except.error .InvalidCalculation
  else if args.uri.length = 0 ∨ 200 < args.uri.length then Except.error .InvalidCalculation
  else if args.seed_lamports = 0 then Except.error .InvalidCalculation
  else
    match usd_to_lamports cfg MIN_SEED_USD with
    | none => Except.error .PriceOracleUnavailable
    | some min_lamports =>
      if args.seed_lamports < min_lamports then Except.error .SeedAmountTooLow
      else
        match usd_to_lamports cfg MAX_SEED_USD with
        | none => Except.error .PriceOracleUnavailable
        | some max_lamports =>
          if max_lamports < args.seed_lamports then Except.error .SeedAmountTooHigh
          else if U64_MAX < args.seed_lamports * TOTAL_FEE_BPS then Except.error .MathOverflow
          else
            let fee := buy_total_fee args.seed_lamports
            if args.seed_lamports < fee then Except.error .MathOverflow
            else
              let net_deposit := args.seed_lamports - fee
              match buy_return net_deposit 0 with
              | .error e => Except.error e
              | .ok shares =>
                .ok { launch :=
                        { launch_id := cfg.total_launches
                          name := args.name, symbol := args.symbol, uri := args.uri
                          total_shares := shares
                          total_sol := net_deposit
                          creator_seed_shares := shares
                          creator_seed_sol := net_deposit
                          graduated := false
                          refund_mode := false
                          vesting_start := none
                          creator_claimed_shares := 0
                          created_at := now
                          graduated_at := none
                          refund_enabled_at := none
                          operation_in_progress := false
                          creator_accrued_fees := 0
                          protocol_accrued_fees := 0
                          total_shares_at_graduation := 0 }
                      positions :=
                        [{ shares := 0
                           sol_basis := 0
                           locked_shares := shares
                           vested_shares_claimed := 0
                           has_claimed_tokens := false
                           has_claimed_refund := false
                           first_buy_at := now
                           last_updated_at := now }] }

/-- buy.rs handler over one launch and the buyer's position.  The
market-cap/readiness event block (lines 198-230) only emits events: its
u128 arithmetic (`u64 * u64` then division by 1e9) cannot overflow and it
performs no state mutation, so it is omitted. -/
def buy (stats : CreatorStats) (l : Launch) (p : Position)
    (sol_amount min_shares_out : Nat) (now : Int) :
    Except AstraError (Launch × Position) :=
  if l.graduated then Except.error .AlreadyGraduated
  else if l.refund_mode then Except.error .RefundModeActive
  else if sol_amount = 0 then Except.error .InvalidCalculation
  else if MAX_BUY_LAMPORTS < sol_amount then Except.error .InvalidCalculation
  else if min_shares_out = 0 then Except.error .InvalidCalculation
  else if l.operation_in_progress then Except.error .InvalidCalculation
  else
    let creator_fee_bps := get_creator_fee_bps stats
    -- protocol_fee_bps = TOTAL_FEE_BPS - creator_fee_bps (checked_sub cannot
    -- fail: creator_fee_bps is 30 or 50)
    if U64_MAX < sol_amount * TOTAL_FEE_BPS then Except.error .MathOverflow
    else if U64_MAX < sol_amount * creator_fee_bps then Except.error .MathOverflow
    else if U64_MAX < sol_amount * (TOTAL_FEE_BPS - creator_fee_bps) then Except.error .MathOverflow
    else
      let total_fee := buy_total_fee sol_amount
      let creator_fee := buy_creator_fee sol_amount creator_fee_bps
      let protocol_fee := buy_protocol_fee sol_amount creator_fee_bps
      if sol_amount < total_fee then Except.error .MathOverflow
      else
        let net_sol := sol_amount - total_fee
        match buy_return net_sol l.total_shares with
        | .error e => Except.error e
        | .ok shares =>
          if shares < min_shares_out then Except.error .SlippageExceeded
          else
            let p1 := if p.first_buy_at = 0 then { p with first_buy_at := now } else p
            if U64_MAX < p1.shares + shares then Except.error .MathOverflow
            else if U64_MAX < p1.sol_basis + net_sol then Except.error .MathOverflow
            else if U64_MAX < l.total_shares + shares then Except.error .MathOverflow
            else if U64_MAX < l.total_sol + net_sol then Except.error .MathOverflow
            else if U64_MAX < l.creator_accrued_fees + creator_fee then Except.error .MathOverflow
            else if U64_MAX < l.protocol_accrued_fees + protocol_fee then Except.error .MathOverflow
            else
              .ok ({ l with
                      total_shares := l.total_shares + shares
                      total_sol := l.total_sol + net_sol
                      creator_accrued_fees := l.creator_accrued_fees + creator_fee
                      protocol_accrued_fees := l.protocol_accrued_fees + protocol_fee
                      operation_in_progress := false },
                   { p1 with
                      shares := p1.shares + shares
                      sol_basis := p1.sol_basis + net_sol
                      last_updated_at := now })

/-- sell.rs handler over one launch and the seller's position. -/
def sell (l : Launch) (p : Position) (shares_to_sell min_sol_out : Nat) (now : Int) :
    Except AstraError (Launch × Position) :=
  if l.graduated then Except.error .AlreadyGraduated
  else if l.refund_mode then Except.error .RefundModeActive
  else if shares_to_sell = 0 then Except.error .InvalidCalculation
  else if p.shares < shares_to_sell then Except.error .InsufficientShares
  else if p.sol_basis < min_sol_out then Except.error .InvalidCalculation
  else if l.operation_in_progress then Except.error .InvalidCalculation
  else
    match sell_return shares_to_sell p.shares p.sol_basis with
    | .error e => Except.error e
    | .ok refund =>
      if refund < min_sol_out then Except.error .SlippageExceeded
      else if p.sol_basis < refund then Except.error .MathOverflow
      else if l.total_shares < shares_to_sell then Except.error .MathOverflow
      else if l.total_sol < refund then Except.error .MathOverflow
      else
        .ok ({ l with
                total_shares := l.total_shares - shares_to_sell
                total_sol := l.total_sol - refund
                operation_in_progress := false },
             { p with
                shares := p.shares - shares_to_sell
                sol_basis := p.sol_basis - refund
                last_updated_at := now })

/-- enable_refund.rs `is_launch_expired`. -/
def is_launch_expired (l : Launch) (now : Int) : Bool :=
  decide (l.created_at + LAUNCH_DURATION_SECONDS ≤ now)

/-- enable_refund.rs handler. -/
def enable_refund (l : Launch) (now : Int) : Except AstraError Launch :=
  if l.graduated then Except.error .AlreadyGraduated
  else if l.refund_mode then Except.error .RefundModeAlreadyActive
  else if ¬ is_launch_expired l now then Except.error .LaunchNotExpired
  else .ok { l with refund_mode := true, refund_enabled_at := some now }

/-- force_graduate.rs handler, restricted to launch state: the wSOL wrap,
token mint, Raydium pool CPI and vault initialization act on external
accounts and are omitted; the launch-state transition (lines 299-308) is
modelled exactly. -/
def force_graduate (l : Launch) (now : Int) : Except AstraError Launch :=
  if l.graduated then Except.error .AlreadyGraduated
  else if l.refund_mode then Except.error .RefundModeActive
  else if l.operation_in_progress then Except.error .InvalidCalculation
  else if l.total_sol = 0 then Except.error .InvalidCalculation
  else
    .ok { l with
           graduated := true
           graduated_at := some now
           vesting_start := some now
           total_shares_at_graduation := l.total_shares
           operation_in_progress := false }

/-- Modelled from the spec: the normal `graduate` instruction is declared in
lib.rs but its instruction file is not under src/.  Per the spec (§4.4) the
emergency variant force-graduate "performs the identical state transition
and side effects", differing only in the caller-authorization gate, which is
outside this state model. -/
def graduate (l : Launch) (now : Int) : Except AstraError Launch :=
  force_graduate l now

/-- claim_vesting.rs handler.  The seed-times-elapsed product of two u64-range
values cannot exceed `U128_MAX`; the checked u64 additions are modelled. -/
def claim_vesting (l : Launch) (p : Position) (now : Int) :
    Except AstraError (Launch × Position) :=
  if ¬ l.graduated then Except.error .NotGraduated
  else if l.operation_in_progress then Except.error .InvalidCalculation
  else
    match l.vesting_start with
    | none => Except.error .NotGraduated
    | some vs =>
      if now < vs then Except.error .VestingNotStarted
      else
        let capped_elapsed := min (now - vs) VESTING_DURATION_SECONDS
        let seed_shares := l.creator_seed_shares
        let already_claimed := l.creator_claimed_shares
        -- remaining_seed = seed_shares.saturating_sub(already_claimed)
        if seed_shares - already_claimed = 0 then Except.error .NoSharesToClaim
        else
          let total_vested := seed_shares * capped_elapsed.toNat / VESTING_DURATION_SECONDS.toNat
          if total_vested < already_claimed then Except.error .MathOverflow
          else
            let claimable := total_vested - already_claimed
            if claimable = 0 then Except.error .NoSharesToClaim
            else if p.locked_shares < claimable then Except.error .InvalidCalculation
            else if U64_MAX < p.shares + claimable then Except.error .MathOverflow
            else if U64_MAX < p.vested_shares_claimed + claimable then Except.error .MathOverflow
            else if U64_MAX < already_claimed + claimable then Except.error .MathOverflow
            else
              .ok ({ l with
                      creator_claimed_shares := already_claimed + claimable
                      operation_in_progress := false },
                   { p with
                      locked_shares := p.locked_shares - claimable
                      shares := p.shares + claimable
                      vested_shares_claimed := p.vested_shares_claimed + claimable
                      last_updated_at := now })

/-- claim_refund.rs handler; `launch_balance` and `rent_min` are the launch
account's lamport balance and rent-exempt minimum read from the host.
`saturating_sub` is Nat subtraction. -/
def claim_refund (l : Launch) (p : Position) (launch_balance rent_min : Nat) :
    Except AstraError (Launch × Position) :=
  if ¬ l.refund_mode then Except.error .RefundModeNotActive
  else if p.has_claimed_refund then Except.error .AlreadyClaimed
  else
    let refund_amount := p.sol_basis
    if refund_amount = 0 then .ok (l, { p with has_claimed_refund := true })
    else if launch_balance - rent_min < refund_amount then Except.error .InsufficientFunds
    else
      .ok ({ l with
              total_shares := l.total_shares - p.shares
              total_sol := l.total_sol - p.sol_basis },
           { p with has_claimed_refund := true })

/-- push_refund.rs handler; on success the position account is closed. -/
def push_refund (l : Launch) (p : Position) (launch_balance rent_min : Nat) :
    Except AstraError Launch :=
  if ¬ l.refund_mode then Except.error .RefundModeNotActive
  else if p.has_claimed_refund then Except.error .AlreadyClaimed
  else
    let refund_amount := p.sol_basis
    if refund_amount = 0 then .ok l
    else if launch_balance - rent_min < refund_amount then Except.error .InsufficientFunds
    else if U64_MAX < p.shares + p.locked_shares then Except.error .MathOverflow
    else
      .ok { l with
             total_sol := l.total_sol - p.sol_basis
             total_shares := l.total_shares - (p.shares + p.locked_shares) }

/-- claim_creator_fees.rs handler, launch part (the creator-stats lifetime
counter and the lamport transfer touch other accounts). -/
def claim_creator_fees (l : Launch) : Except AstraError Launch :=
  if ¬ l.graduated then Except.error .NotGraduated
  else if l.creator_accrued_fees = 0 then Except.error .NoFeesToClaim
  else if l.operation_in_progress then Except.error .InvalidCalculation
  else .ok { l with creator_accrued_fees := 0, operation_in_progress := false }

/-- claim_tokens.rs handler; `is_creator` abstracts the
`user.key() == launch.creator` comparison.  The computed token amount is
truncated to u64 by the source's `as u64` cast. -/
def claim_tokens (l : Launch) (p : Position) (is_creator : Bool) :
    Except AstraError (Launch × Position) :=
  if ¬ l.graduated then Except.error .NotGraduated
  else if p.has_claimed_tokens then Except.error .AlreadyClaimed
  else if l.operation_in_progress then Except.error .InvalidCalculation
  else if is_creator ∧ l.creator_seed_shares - p.vested_shares_claimed ≠ 0 then
    Except.error .VestingNotComplete
  else if l.total_shares_at_graduation = 0 then Except.error .InvalidCalculation
  else if U128_MAX < p.shares * (TOKENS_FOR_HOLDERS * 1000000000) then Except.error .MathOverflow
  else
    let amount := p.shares * (TOKENS_FOR_HOLDERS * 1000000000) / l.total_shares_at_graduation
      % (U64_MAX + 1)
    if amount = 0 then Except.error .NoSharesToClaim
    else
      .ok ({ l with operation_in_progress := false },
           { p with has_claimed_tokens := true, shares := 0 })

/-- poke.rs yield-split constants (ADR-001). -/
def POKE_CALLER_BPS : Nat := 100

def POKE_CREATOR_BPS : Nat := 6000

def POKE_PROTOCOL_BPS : Nat := 1000

def POKE_TOTAL_BPS : Nat := 10000

/-- poke.rs handler.  The MVP source fixes `simulated_yield = 1_000_000`
(a stand-in for querying the Raydium pool); the split computation is a
function of that one external input, taken here as the parameter
`simulated_yield`.  Returns the updated vault and the four split amounts
(caller, creator, protocol, compounded). -/
def poke (l : Launch) (v : Vault) (simulated_yield : Nat) (now : Int) :
    Except AstraError (Vault × Nat × Nat × Nat × Nat) :=
  if ¬ l.graduated then Except.error .NotGraduated
  else if simulated_yield = 0 then .ok ({ v with last_poke_at := now }, 0, 0, 0, 0)
  else if U64_MAX < simulated_yield * POKE_CALLER_BPS then Except.error .MathOverflow
  else if U64_MAX < simulated_yield * POKE_CREATOR_BPS then Except.error .MathOverflow
  else if U64_MAX < simulated_yield * POKE_PROTOCOL_BPS then Except.error .MathOverflow
  else
    let caller_reward := simulated_yield * POKE_CALLER_BPS / POKE_TOTAL_BPS
    let creator_reward := simulated_yield * POKE_CREATOR_BPS / POKE_TOTAL_BPS
    let protocol_reward := simulated_yield * POKE_PROTOCOL_BPS / POKE_TOTAL_BPS
    -- compound_amount via three sequential checked_subs
    if simulated_yield < caller_reward then Except.error .MathOverflow
    else if simulated_yield - caller_reward < creator_reward then Except.error .MathOverflow
    else if simulated_yield - caller_reward - creator_reward < protocol_reward then
      Except.error .MathOverflow
    else
      let compound_amount := simulated_yield - caller_reward - creator_reward - protocol_reward
      if U64_MAX < caller_reward + creator_reward then Except.error .MathOverflow
      else if U64_MAX < caller_reward + creator_reward + protocol_reward then Except.error .MathOverflow
      else if U64_MAX < caller_reward + creator_reward + protocol_reward + compound_amount then
        Except.error .MathOverflow
      else if caller_reward + creator_reward + protocol_reward + compound_amount
          ≠ simulated_yield then Except.error .InvalidCalculation
      else if U64_MAX < v.total_yield_collected + simulated_yield then Except.error .MathOverflow
      else if U64_MAX < v.total_creator_paid + creator_reward then Except.error .MathOverflow
      else if U64_MAX < v.total_protocol_paid + protocol_reward then Except.error .MathOverflow
      else if U64_MAX < v.total_compounded + compound_amount then Except.error .MathOverflow
      else if U64_MAX < v.total_caller_paid + caller_reward then Except.error .MathOverflow
      else
        .ok ({ v with
                total_yield_collected := v.total_yield_collected + simulated_yield
                total_creator_paid := v.total_creator_paid + creator_reward
                total_protocol_paid := v.total_protocol_paid + protocol_reward
                total_compounded := v.total_compounded + compound_amount
                total_caller_paid := v.total_caller_paid + caller_reward
                last_poke_at := now },
             caller_reward, creator_reward, protocol_reward, compound_amount)

/-- close_launch.rs: account constraints only (the handler just emits an
event and Anchor closes the account).  Returns the unchanged launch, whose
account is then deleted. -/
def close_launch (l : Launch) : Except AstraError Launch :=
  if ¬ l.refund_mode then Except.error .RefundModeNotActive
  else if l.total_shares ≠ 0 then Except.error .LaunchNotEmpty
  else if l.total_sol ≠ 0 then Except.error .LaunchNotEmpty
  else .ok l

/-! ## Reachability relations -/

/-- Shares counted by the aggregate invariant for one position. -/
def posShares (p : Position) : Nat := p.shares + p.locked_shares

/-- Sum of `shares + locked_shares` over a position list. -/
def sumShares (ps : List Position) : Nat := (ps.map posShares).sum

/-- Sum of `sol_basis` over a position list. -/
def sumBasis (ps : List Position) : Nat := (ps.map Position.sol_basis).sum

/-- States of an active launch reachable from `create_launch` by sequences
of `buy` and `sell` operations (the scope quantified over by the aggregate
claim).  A buy may target an existing position or create a fresh one. -/
inductive ReachBS : ProgState → Prop where
  | created (cfg : GlobalConfig) (args : CreateLaunchArgs) (now : Int) (st : ProgState) :
      create_launch cfg args now = .ok st → ReachBS st
  | buyStep (st : ProgState) (stats : CreatorStats) (i : Nat)
      (amount min_shares : Nat) (now : Int) (l2 : Launch) (p2 : Position)
      (hi : i < st.positions.length) :
      ReachBS st →
      buy stats st.launch (st.positions.get ⟨i, hi⟩) amount min_shares now = .ok (l2, p2) →
      ReachBS ⟨l2, st.positions.set i p2⟩
  | buyNew (st : ProgState) (stats : CreatorStats)
      (amount min_shares : Nat) (now : Int) (l2 : Launch) (p2 : Position) :
      ReachBS st →
      buy stats st.launch freshPosition amount min_shares now = .ok (l2, p2) →
      ReachBS ⟨l2, st.positions ++ [p2]⟩
  | sellStep (st : ProgState) (i : Nat)
      (shares_to_sell min_sol_out : Nat) (now : Int) (l2 : Launch) (p2 : Position)
      (hi : i < st.positions.length) :
      ReachBS st →
      sell st.launch (st.positions.get ⟨i, hi⟩) shares_to_sell min_sol_out now = .ok (l2, p2) →
      ReachBS ⟨l2, st.positions.set i p2⟩

/-- One launch-mutating operation of the public instruction set, with the
per-call inputs that the launch-state transition depends on. -/
inductive LaunchOp where
  | buyOp (stats : CreatorStats) (p : Position) (amount min_shares : Nat) (now : Int)
  | sellOp (p : Position) (shares_to_sell min_sol_out : Nat) (now : Int)
  | enableRefundOp (now : Int)
  | forceGraduateOp (now : Int)
  | graduateOp (now : Int)
  | claimVestingOp (p : Position) (now : Int)
  | claimRefundOp (p : Position) (launch_balance rent_min : Nat)
  | pushRefundOp (p : Position) (launch_balance rent_min : Nat)
  | claimCreatorFeesOp
  | claimTokensOp (p : Position) (is_creator : Bool)
  | closeLaunchOp

/-- Launch-state effect of one operation. -/
def applyLaunchOp (l : Launch) : LaunchOp → Except AstraError Launch
  | .buyOp stats p amount min_shares now => (buy stats l p amount min_shares now).map Prod.fst
  | .sellOp p shares_to_sell min_sol_out now =>
      (sell l p shares_to_sell min_sol_out now).map Prod.fst
  | .enableRefundOp now => enable_refund l now
  | .forceGraduateOp now => force_graduate l now
  | .graduateOp now => graduate l now
  | .claimVestingOp p now => (claim_vesting l p now).map Prod.fst
  | .claimRefundOp p launch_balance rent_min =>
      (claim_refund l p launch_balance rent_min).map Prod.fst
  | .pushRefundOp p launch_balance rent_min => push_refund l p launch_balance rent_min
  | .claimCreatorFeesOp => claim_creator_fees l
  | .claimTokensOp p is_creator => (claim_tokens l p is_creator).map Prod.fst
  | .closeLaunchOp => close_launch l

/-- Launch states reachable from `create_launch` under the full modelled
operation set. -/
inductive LReach : Launch → Prop where
  | created (cfg : GlobalConfig) (args : CreateLaunchArgs) (now : Int) (st : ProgState) :
      create_launch cfg args now = .ok st → LReach st.launch
  | step (l : Launch) (op : LaunchOp) (l2 : Launch) :
      LReach l → applyLaunchOp l op = .ok l2 → LReach l2

/-! ## Concrete fixtures used by witnesses and counterexamples -/

/-- A config whose cached SOL price is 200 USD, last updated at time 0. -/
def cfg0 : GlobalConfig :=
  { min_seed_lamports := 200000000, sol_price_usd := 200
    price_last_updated := 0, paused := false, total_launches := 0 }

/-- A 1-SOL-seed create-launch call. -/
def args0 : CreateLaunchArgs :=
  { name := "t", symbol := "T", uri := "u", seed_lamports := 1000000000 }

/-- The state produced by `create_launch cfg0 args0 0` (evaluated form). -/
def createdState : ProgState :=
  match create_launch cfg0 args0 0 with
  | .ok st => st
  | .error _ => { launch := default, positions := [] }

/-- An unverified creator (no graduations yet). -/
def statsU : CreatorStats :=
  { graduated_count := 0, total_fees_earned := 0, total_launches := 1 }

/-- A verified creator (one prior graduation). -/
def statsV : CreatorStats :=
  { graduated_count := 1, total_fees_earned := 0, total_launches := 2 }

/-- A fresh active launch (no trades yet). -/
def launchA : Launch :=
  { launch_id := 0, name := "t", symbol := "T", uri := "u"
    total_shares := 0, total_sol := 0
    creator_seed_shares := 0, creator_seed_sol := 0
    graduated := false, refund_mode := false
    vesting_start := none, creator_claimed_shares := 0
    created_at := 0, graduated_at := none, refund_enabled_at := none
    operation_in_progress := false
    creator_accrued_fees := 0, protocol_accrued_fees := 0
    total_shares_at_graduation := 0 }

/-- A graduated launch with a 1000-share creator seed, vesting from t = 0. -/
def launchG : Launch :=
  { launchA with
      graduated := true
      total_shares := 2000, total_sol := 1000000
      creator_seed_shares := 1000, creator_seed_sol := 500000
      vesting_start := some 0, graduated_at := some 0
      total_shares_at_graduation := 2000 }

/-- State of `launchG` after the creator claims 500 vested shares. -/
def launchGb : Launch := { launchG with creator_claimed_shares := 500 }

/-- The creator's position on `launchG` before any vesting claim. -/
def posG : Position := { freshPosition with locked_shares := 1000 }

/-- State of `posG` after claiming 500 vested shares at t = 1814400 (21 days). -/
def posGb : Position :=
  { posG with
      locked_shares := 500
      shares := 500
      vested_shares_claimed := 500
      last_updated_at := 1814400 }

/-- An empty vault. -/
def vault0 : Vault :=
  { lp_balance := 0, activated := true
    total_yield_collected := 0, total_creator_paid := 0, total_protocol_paid := 0
    total_compounded := 0, total_caller_paid := 0, last_poke_at := 0 }

/-! ## Correctness of the integer square root -/

theorem log2fuel_spec :
    ∀ fuel n, 0 < n → n < 2 ^ fuel →
      2 ^ log2fuel fuel n ≤ n ∧ n < 2 ^ (log2fuel fuel n + 1) := by
  intro fuel
  induction fuel with
  | zero => intro n h0 h1; simp at h1; omega
  | succ f ih =>
    intro n h0 h1
    by_cases h2 : n < 2
    · simp only [log2fuel, if_pos h2]
      constructor
      · simpa using h0
      · simpa using h2
    · have hm0 : 0 < n / 2 := by omega
      have hm1 : n / 2 < 2 ^ f := by
        rw [Nat.div_lt_iff_lt_mul (by norm_num)]
        calc n < 2 ^ (f + 1) := h1
          _ = 2 ^ f * 2 := by ring
      obtain ⟨ha, hb⟩ := ih (n / 2) hm0 hm1
      simp only [log2fuel, if_neg h2]
      have e1 : (2 : Nat) ^ (log2fuel f (n / 2) + 1) = 2 ^ log2fuel f (n / 2) * 2 := by ring
      have e2 : (2 : Nat) ^ (log2fuel f (n / 2) + 1 + 1) = 2 ^ log2fuel f (n / 2) * 4 := by ring
      rw [e1] at hb ⊢
      rw [e2]
      omega

theorem u128_log2_bounds (n : Nat) (h0 : 0 < n) (h1 : n < 2 ^ 128) :
    2 ^ u128_log2 n ≤ n ∧ n < 2 ^ (u128_log2 n + 1) :=
  log2fuel_spec 128 n h0 h1

theorem u128_log2_le_127 (n : Nat) (h0 : 0 < n) (h1 : n < 2 ^ 128) :
    u128_log2 n ≤ 127 := by
  by_contra h
  have h128 : 128 ≤ u128_log2 n := by omega
  have := (u128_log2_bounds n h0 h1).1
  have : (2 : Nat) ^ 128 ≤ 2 ^ u128_log2 n :=
    Nat.pow_le_pow_right (by norm_num) h128
  omega

theorem sqrt_shift_eq (n : Nat) (h0 : 0 < n) (h1 : n < 2 ^ 128) :
    sqrt_shift n = (u128_log2 n + 2) / 2 := by
  have := u128_log2_le_127 n h0 h1
  unfold sqrt_shift u128_leading_zeros
  omega

theorem sqrt_shift_le_64 (n : Nat) (h0 : 0 < n) (h1 : n < 2 ^ 128) :
    sqrt_shift n ≤ 64 := by
  have hk := u128_log2_le_127 n h0 h1
  rw [sqrt_shift_eq n h0 h1]
  omega

/-- The bit-length-derived initial guess dominates the true square root. -/
theorem sqrt_le_initial_guess (n : Nat) (h0 : 0 < n) (h1 : n < 2 ^ 128) :
    Nat.sqrt n ≤ 2 ^ sqrt_shift n := by
  obtain ⟨_, hb⟩ := u128_log2_bounds n h0 h1
  have hsh : u128_log2 n + 1 ≤ 2 * sqrt_shift n := by
    rw [sqrt_shift_eq n h0 h1]; omega
  have hlt : n < 2 ^ sqrt_shift n * 2 ^ sqrt_shift n := by
    calc n < 2 ^ (u128_log2 n + 1) := hb
      _ ≤ 2 ^ (2 * sqrt_shift n) := Nat.pow_le_pow_right (by norm_num) hsh
      _ = 2 ^ sqrt_shift n * 2 ^ sqrt_shift n := by rw [← pow_add]; ring_nf
  exact le_of_lt (Nat.sqrt_lt.mpr hlt)

/-- Newton lower bound: one iteration step never drops below `⌊√n⌋`. -/
theorem newton_step_ge_sqrt (n x : Nat) (hx : 0 < x) :
    Nat.sqrt n ≤ (x + n / x) / 2 := by
  by_contra hcon
  set y := (x + n / x) / 2 with hy
  have hy1 : y + 1 ≤ Nat.sqrt n := by omega
  have hsq : (y + 1) * (y + 1) ≤ n := by
    calc (y + 1) * (y + 1) ≤ Nat.sqrt n * Nat.sqrt n := Nat.mul_le_mul hy1 hy1
      _ ≤ n := Nat.sqrt_le n
  have hxq : x + n / x ≤ 2 * y + 1 := by omega
  have hmod := Nat.div_add_mod n x
  have hrlt : n % x < x := Nat.mod_lt n hx
  -- Work over the integers.
  have hZ : ((y : ℤ) + 1) * ((y : ℤ) + 1) ≤ (x : ℤ) * (n / x : Nat) + (n % x : Nat) := by
    have : ((x : ℤ) * (n / x : Nat) + (n % x : Nat)) = (n : ℤ) := by
      exact_mod_cast congrArg (Nat.cast : Nat → ℤ) hmod
    rw [this]; exact_mod_cast hsq
  have hxqZ : (x : ℤ) + (n / x : Nat) ≤ 2 * y + 1 := by exact_mod_cast hxq
  have hrZ : (n % x : Nat) < (x : ℤ) := by exact_mod_cast hrlt
  have hxZ : (1 : ℤ) ≤ x := by exact_mod_cast hx
  nlinarith [sq_nonneg ((x : ℤ) - (y : ℤ) - 1)]

/-- When the iteration stops (`x ≤ y`), the current value is at most `⌊√n⌋`. -/
theorem newton_stop_le_sqrt (n x : Nat) (hx : 0 < x)
    (hstop : x ≤ (x + n / x) / 2) : x ≤ Nat.sqrt n := by
  have h2x : 2 * x ≤ x + n / x := by omega
  have hxd : x ≤ n / x := by omega
  have : x * x ≤ n := (Nat.le_div_iff_mul_le hx).mp hxd
  exact Nat.le_sqrt.mpr this

theorem sqrtIter_eq_sqrt (n : Nat) :
    ∀ fuel x, Nat.sqrt n ≤ x → x ≤ fuel → sqrtIter n fuel x = Nat.sqrt n := by
  intro fuel
  induction fuel with
  | zero => intro x hs hf; interval_cases x; simp [sqrtIter]; omega
  | succ f ih =>
    intro x hs hf
    by_cases hx0 : x = 0
    · subst hx0
      have : Nat.sqrt n = 0 := by omega
      simp [sqrtIter, this]
    · have hx : 0 < x := by omega
      by_cases hstop : x ≤ (x + n / x) / 2
      · have h1 := newton_stop_le_sqrt n x hx hstop
        simp only [sqrtIter, if_pos hstop]
        omega
      · have hylt : (x + n / x) / 2 < x := by omega
        have hys : Nat.sqrt n ≤ (x + n / x) / 2 := newton_step_ge_sqrt n x hx
        simp only [sqrtIter, if_neg hstop]
        exact ih _ hys (by omega)

/-- The embedded `integer_sqrt` computes `⌊√n⌋` on every input. -/
theorem integer_sqrt_eq_sqrt (n : Nat) (h1 : n < 2 ^ 128) :
    integer_sqrt n = Nat.sqrt n := by
  by_cases h2 : n < 2
  · interval_cases n <;> decide
  · have h0 : 0 < n := by omega
    simp only [integer_sqrt, if_neg h2]
    exact sqrtIter_eq_sqrt n _ _ (sqrt_le_initial_guess n h0 h1) le_rfl

/-- Division bound used for the no-overflow argument:
`n / x ≤ ⌊√n⌋ + 2` whenever `⌊√n⌋ ≤ x` and `n` is positive. -/
theorem div_le_sqrt_add_two (n x : Nat) (h0 : 0 < n) (hx : Nat.sqrt n ≤ x) :
    n / x ≤ Nat.sqrt n + 2 := by
  have hs : 0 < Nat.sqrt n := Nat.sqrt_pos.mpr h0
  have h1 : n / x ≤ n / Nat.sqrt n := Nat.div_le_div_left hx hs
  have h2 : n < (Nat.sqrt n + 1) * (Nat.sqrt n + 1) := Nat.lt_succ_sqrt n
  have h3 : n ≤ Nat.sqrt n * (Nat.sqrt n + 2) := by nlinarith
  have h4 : n / Nat.sqrt n ≤ Nat.sqrt n * (Nat.sqrt n + 2) / Nat.sqrt n :=
    Nat.div_le_div_right h3
  rw [Nat.mul_div_cancel_left _ hs] at h4
  omega

theorem sqrtIterChecked_eq (n : Nat) (hn : 2 ≤ n) (h128 : n < 2 ^ 128) :
    ∀ fuel x, Nat.sqrt n ≤ x → x ≤ fuel → x ≤ 2 ^ 64 →
      sqrtIterChecked n fuel x = some (Nat.sqrt n) := by
  intro fuel
  induction fuel with
  | zero => intro x hs hf _; exfalso; have := Nat.sqrt_pos.mpr (by omega : 0 < n); omega
  | succ f ih =>
    intro x hs hf hb
    have hx : 0 < x := by have := Nat.sqrt_pos.mpr (by omega : 0 < n); omega
    have hslt : Nat.sqrt n < 2 ^ 64 := by
      by_contra hge
      have h64 : 2 ^ 64 ≤ Nat.sqrt n := by omega
      have : 2 ^ 64 * 2 ^ 64 ≤ Nat.sqrt n * Nat.sqrt n := Nat.mul_le_mul h64 h64
      have := Nat.sqrt_le n
      norm_num at this ⊢
      omega
    have hdiv : n / x ≤ Nat.sqrt n + 2 := div_le_sqrt_add_two n x (by omega) hs
    have hsum : ¬ U128_MAX < x + n / x := by
      have : x + n / x ≤ 2 ^ 64 + (2 ^ 64 + 1) := by omega
      unfold U128_MAX
      norm_num at this ⊢
      omega
    by_cases hstop : x ≤ (x + n / x) / 2
    · have h1 := newton_stop_le_sqrt n x hx hstop
      simp only [sqrtIterChecked, if_neg hsum, if_pos hstop]
      congr 1
      omega
    · have hylt : (x + n / x) / 2 < x := by omega
      have hys := newton_step_ge_sqrt n x hx
      simp only [sqrtIterChecked, if_neg hsum, if_neg hstop]
      exact ih _ hys (by omega) (by omega)

/-- The bound-checked Newton iteration never overflows a `u128` and computes
`⌊√n⌋` for every `u128` input. -/
theorem integer_sqrtChecked_eq_sqrt (n : Nat) (h1 : n < 2 ^ 128) :
    integer_sqrtChecked n = some (Nat.sqrt n) := by
  by_cases h2 : n < 2
  · interval_cases n <;> decide
  · have h0 : 0 < n := by omega
    have hsh := sqrt_shift_le_64 n h0 h1
    have hguess := sqrt_le_initial_guess n h0 h1
    simp only [integer_sqrtChecked, if_neg h2, if_neg (by omega : ¬ 128 ≤ sqrt_shift n)]
    exact sqrtIterChecked_eq n (by omega) h1 _ _ hguess le_rfl
      (Nat.pow_le_pow_right (by norm_num) hsh)

example : buy_quote 0 123 = .ok 0 := by decide
example : sell_return 50 100 10000000000 = .ok 5000000000 := by decide
example : integer_sqrt 15 = 3 := by decide
example : integer_sqrt 1000000000000 = 1000000 := by decide

/-- C9: for every u128 input, the Newton integer square root terminates with
the floor of the real square root (characterized by `r² ≤ n < (r+1)²`, and
equal to `Nat.sqrt`), and — per the bound-checked variant — no intermediate
u128 operation overflows even near the type's maximum. -/
theorem integer_sqrt_newton_correct (n : Nat) (h : n < 2 ^ 128) :
    integer_sqrtChecked n = some (integer_sqrt n)
    ∧ integer_sqrt n = Nat.sqrt n
    ∧ integer_sqrt n * integer_sqrt n ≤ n
    ∧ n < (integer_sqrt n + 1) * (integer_sqrt n + 1) := by
  have heq := integer_sqrt_eq_sqrt n h
  refine ⟨?_, heq, ?_, ?_⟩
  · rw [integer_sqrtChecked_eq_sqrt n h, heq]
  · rw [heq]; exact Nat.sqrt_le n
  · rw [heq]; exact Nat.lt_succ_sqrt n

/-- Witness for C9 at the spec's largest concrete example. -/
theorem integer_sqrt_newton_correct_witness :
    integer_sqrtChecked 1000000000000 = some (integer_sqrt 1000000000000)
    ∧ integer_sqrt 1000000000000 = 1000000 := by
  have h := integer_sqrt_newton_correct 1000000000000 (by norm_num)
  exact ⟨h.1, by decide⟩

example : integer_sqrt 0 = 0 ∧ integer_sqrt 1 = 1 ∧ integer_sqrt 4 = 2
    ∧ integer_sqrt 9 = 3 ∧ integer_sqrt 16 = 4 := by decide

/-! ## Curve quote: value characterization and monotonicity -/

theorem sq_delta (s n : Nat) : (s + n) * (s + n) - s * s = n * n + 2 * (s * n) := by
  have h : (s + n) * (s + n) = s * s + (n * n + 2 * (s * n)) := by ring
  omega

/-- A successful `buy_quote` returns exactly the quadratic-curve formula. -/
theorem buy_quote_ok_val {n s c : Nat} (h : buy_quote n s = .ok c) :
    c = CURVE_SLOPE * ((s + n) * (s + n) - s * s) / (2 * CURVE_SCALE) := by
  simp only [buy_quote] at h
  split_ifs at h with h1 h2 h3 h4 h5 h6 h7
  all_goals first
  | exact Except.noConfusion h
  | (injection h with hc
     subst h1
     simp only [Nat.add_zero, Nat.sub_self, Nat.mul_zero, Nat.zero_div]
     omega)
  | (injection h with hc
     exact hc.symm)

/-- C5 (amended): `buy_quote` is monotone (non-decreasing) jointly in
`shares_out` and `current_supply` wherever it succeeds, and the spec's
concrete instance is strict: `quote(1e6, 0) = 390625 < 8203125 =
quote(1e6, 1e7)`.  Strict monotonicity in general fails on the floor
division (see the counterexample). -/
theorem buy_quote_monotone :
    (∀ n1 n2 s1 s2 c1 c2, n1 ≤ n2 → s1 ≤ s2 →
      buy_quote n1 s1 = .ok c1 → buy_quote n2 s2 = .ok c2 → c1 ≤ c2)
    ∧ buy_quote 1000000 0 = .ok 390625
    ∧ buy_quote 1000000 10000000 = .ok 8203125 := by
  refine ⟨?_, by decide, by decide⟩
  intro n1 n2 s1 s2 c1 c2 hn hs h1 h2
  rw [buy_quote_ok_val h1, buy_quote_ok_val h2]
  apply Nat.div_le_div_right
  apply Nat.mul_le_mul_left
  rw [sq_delta, sq_delta]
  have ha : n1 * n1 ≤ n2 * n2 := Nat.mul_le_mul hn hn
  have hb : s1 * n1 ≤ s2 * n2 := Nat.mul_le_mul hs hn
  omega

/-- Witness for C5: the monotonicity part applied at the spec's instance. -/
theorem buy_quote_monotone_witness :
    buy_quote 1000000 0 = .ok 390625 ∧ (390625 : Nat) ≤ 8203125 :=
  ⟨by decide, buy_quote_monotone.1 1000000 1000000 0 10000000 390625 8203125
    (by decide) (by decide) (by decide) (by decide)⟩

/-- C5 counterexample: the original claim's strictness fails — with
`shares_out = 1` the cost is 0 lamports both at supply 0 and at supply 1
(and for 1 versus 2 shares at supply 0), because the numerator is far below
the `2 · CURVE_SCALE` denominator and floor division collapses it. -/
theorem buy_quote_not_strictly_monotone :
    buy_quote 1 0 = .ok 0 ∧ buy_quote 1 1 = .ok 0 ∧ buy_quote 2 0 = .ok 0 := by
  decide

/-! ## C6: selling with zero user shares -/

/-- C6 (amended): with a positive `shares_to_sell`, a zero-share position
makes `sell_return` report `InvalidCalculation`; but `shares_to_sell = 0`
short-circuits to a zero refund before the zero-share check. -/
theorem sell_return_zero_shares_errors (shares_to_sell user_basis : Nat)
    (h : 0 < shares_to_sell) :
    sell_return shares_to_sell 0 user_basis = .error .InvalidCalculation := by
  unfold sell_return
  rw [if_neg (by omega), if_pos rfl]

/-- Witness for C6 at a concrete positive sale. -/
theorem sell_return_zero_shares_errors_witness :
    sell_return 10 0 1000000000 = .error .InvalidCalculation :=
  sell_return_zero_shares_errors 10 1000000000 (by decide)

/-- C6 counterexample: at `shares_to_sell = 0` the function returns a
computed refund `ok 0` even though `user_shares = 0`, contradicting the
claim that every `userTotalShares = 0` input (including `sharesToSell = 0`)
reports an invalid-state error. -/
theorem sell_return_zero_zero_returns_ok : sell_return 0 0 100 = .ok 0 := by decide

/-! ## C3: buy fee split -/

/-- C3 (amended): buy.rs computes the protocol fee independently as
`floor(amount · (TOTAL_FEE_BPS − creator_bps) / 10000)`, not as
`total − creator`; the creator plus protocol portions never exceed the total
1% fee, for every amount and both tiers, though they can fall short of it
(see the counterexample). -/
theorem buy_fee_split_bounded (stats : CreatorStats) (amount : Nat) :
    buy_creator_fee amount (get_creator_fee_bps stats)
      + buy_protocol_fee amount (get_creator_fee_bps stats)
      ≤ buy_total_fee amount := by
  have hb : get_creator_fee_bps stats ≤ TOTAL_FEE_BPS := by
    unfold get_creator_fee_bps CREATOR_FEE_VERIFIED_BPS CREATOR_FEE_UNVERIFIED_BPS TOTAL_FEE_BPS
    split_ifs <;> omega
  unfold buy_creator_fee buy_protocol_fee buy_total_fee
  calc amount * get_creator_fee_bps stats / BPS_DENOMINATOR
        + amount * (TOTAL_FEE_BPS - get_creator_fee_bps stats) / BPS_DENOMINATOR
      ≤ (amount * get_creator_fee_bps stats
          + amount * (TOTAL_FEE_BPS - get_creator_fee_bps stats)) / BPS_DENOMINATOR :=
        Nat.add_div_le_add_div _ _ _
    _ = amount * TOTAL_FEE_BPS / BPS_DENOMINATOR := by
        rw [← Nat.mul_add]
        congr 2
        omega

/-- C3 counterexample: at a 199-lamport buy by a verified creator, the total
fee is 1 lamport while the independently floored creator and protocol
portions are both 0, so `creator + protocol ≠ total` and
`protocol ≠ total − creator`; an actual `buy` accrues exactly those 0-lamport
fees. -/
theorem buy_fee_split_not_exact :
    buy_total_fee 199 = 1
    ∧ buy_creator_fee 199 (get_creator_fee_bps statsV) = 0
    ∧ buy_protocol_fee 199 (get_creator_fee_bps statsV) = 0
    ∧ buy_creator_fee 199 (get_creator_fee_bps statsV)
        + buy_protocol_fee 199 (get_creator_fee_bps statsV) ≠ buy_total_fee 199
    ∧ ((buy statsV launchA freshPosition 199 1 7).map
        (fun lp => (lp.1.creator_accrued_fees, lp.1.protocol_accrued_fees))) = .ok (0, 0) := by
  decide

/-! ## C4: staleness is never enforced in USD conversions (code bug) -/

/-- C4: the staleness predicate `is_price_stale` exists (and the error
`PriceOracleUnavailable` is documented as "price oracle unavailable and
cached price is stale"), but `usd_to_lamports` only fails on a zero price
and no caller checks staleness: with the cached price 300+ seconds old,
`create_launch` converts the USD bounds with the stale price and succeeds
instead of failing closed. -/
theorem usd_conversion_ignores_staleness :
    is_price_stale cfg0 10000 = true
    ∧ usd_to_lamports cfg0 MIN_SEED_USD = some 200000000
    ∧ isOkE (create_launch cfg0 args0 10000) = true
    ∧ usd_to_lamports { cfg0 with sol_price_usd := 0 } MIN_SEED_USD = none := by
  refine ⟨by decide, by decide, ?_, by decide⟩
  decide

/-! ## C8: poke yield split -/

/-- C8: for every yield amount, the poke split computes
caller = `⌊Y·1%⌋`, creator = `⌊Y·60%⌋`, protocol = `⌊Y·10%⌋` and
compounded = the exact remainder, so the four parts always sum to the input
(the hypotheses bound the u64 checked multiplications and vault counters). -/
theorem poke_yield_split (l : Launch) (v : Vault) (y : Nat) (now : Int)
    (hg : l.graduated = true)
    (hm : y * POKE_CREATOR_BPS ≤ U64_MAX)
    (hv1 : v.total_yield_collected + y ≤ U64_MAX)
    (hv2 : v.total_creator_paid + y ≤ U64_MAX)
    (hv3 : v.total_protocol_paid + y ≤ U64_MAX)
    (hv4 : v.total_compounded + y ≤ U64_MAX)
    (hv5 : v.total_caller_paid + y ≤ U64_MAX) :
    ∃ v2, poke l v y now =
      .ok (v2,
           y * POKE_CALLER_BPS / POKE_TOTAL_BPS,
           y * POKE_CREATOR_BPS / POKE_TOTAL_BPS,
           y * POKE_PROTOCOL_BPS / POKE_TOTAL_BPS,
           y - y * POKE_CALLER_BPS / POKE_TOTAL_BPS
             - y * POKE_CREATOR_BPS / POKE_TOTAL_BPS
             - y * POKE_PROTOCOL_BPS / POKE_TOTAL_BPS)
      ∧ y * POKE_CALLER_BPS / POKE_TOTAL_BPS
          + y * POKE_CREATOR_BPS / POKE_TOTAL_BPS
          + y * POKE_PROTOCOL_BPS / POKE_TOTAL_BPS
          + (y - y * POKE_CALLER_BPS / POKE_TOTAL_BPS
               - y * POKE_CREATOR_BPS / POKE_TOTAL_BPS
               - y * POKE_PROTOCOL_BPS / POKE_TOTAL_BPS)
          = y := by
  simp only [POKE_CALLER_BPS, POKE_CREATOR_BPS, POKE_PROTOCOL_BPS, POKE_TOTAL_BPS] at hm ⊢
  have habc : y * 100 / 10000 + y * 6000 / 10000 + y * 1000 / 10000 ≤ y := by
    have h1 := Nat.add_div_le_add_div (y * 100) (y * 6000) 10000
    have h2 := Nat.add_div_le_add_div (y * 100 + y * 6000) (y * 1000) 10000
    have h3 : y * 100 + y * 6000 = y * 6100 := by ring
    have h4 : y * 100 + y * 6000 + y * 1000 = y * 7100 := by ring
    rw [h3] at h1 h2
    rw [show y * 6100 + y * 1000 = y * 7100 from by ring] at h2
    have h5 : y * 7100 / 10000 ≤ y := by
      have h6 : y * 7100 ≤ y * 10000 := Nat.mul_le_mul_left y (by norm_num)
      have h7 : y * 7100 / 10000 ≤ y * 10000 / 10000 := Nat.div_le_div_right h6
      rwa [Nat.mul_div_cancel y (by norm_num : 0 < 10000)] at h7
    omega
  by_cases hy : y = 0
  · subst hy
    refine ⟨{ v with last_poke_at := now }, ?_, by decide⟩
    simp [poke, hg, POKE_CALLER_BPS, POKE_CREATOR_BPS, POKE_PROTOCOL_BPS, POKE_TOTAL_BPS]
  · refine ⟨{ v with
        total_yield_collected := v.total_yield_collected + y
        total_creator_paid := v.total_creator_paid + y * 6000 / 10000
        total_protocol_paid := v.total_protocol_paid + y * 1000 / 10000
        total_compounded := v.total_compounded
          + (y - y * 100 / 10000 - y * 6000 / 10000 - y * 1000 / 10000)
        total_caller_paid := v.total_caller_paid + y * 100 / 10000
        last_poke_at := now }, ?_, by omega⟩
    simp only [poke, hg, POKE_CALLER_BPS, POKE_CREATOR_BPS, POKE_PROTOCOL_BPS, POKE_TOTAL_BPS,
      not_true_eq_false, if_false, if_neg hy]
    rw [if_neg (by omega : ¬ U64_MAX < y * 100),
      if_neg (by omega : ¬ U64_MAX < y * 6000),
      if_neg (by omega : ¬ U64_MAX < y * 1000),
      if_neg (by omega : ¬ y < y * 100 / 10000),
      if_neg (by omega : ¬ y - y * 100 / 10000 < y * 6000 / 10000),
      if_neg (by omega : ¬ y - y * 100 / 10000 - y * 6000 / 10000 < y * 1000 / 10000),
      if_neg (by omega : ¬ U64_MAX < y * 100 / 10000 + y * 6000 / 10000),
      if_neg (by omega : ¬ U64_MAX < y * 100 / 10000 + y * 6000 / 10000 + y * 1000 / 10000),
      if_neg (by omega :
        ¬ U64_MAX < y * 100 / 10000 + y * 6000 / 10000 + y * 1000 / 10000
          + (y - y * 100 / 10000 - y * 6000 / 10000 - y * 1000 / 10000)),
      if_neg (by omega :
        ¬ y * 100 / 10000 + y * 6000 / 10000 + y * 1000 / 10000
          + (y - y * 100 / 10000 - y * 6000 / 10000 - y * 1000 / 10000) ≠ y),
      if_neg (by omega : ¬ U64_MAX < v.total_yield_collected + y),
      if_neg (by omega : ¬ U64_MAX < v.total_creator_paid + y * 6000 / 10000),
      if_neg (by omega : ¬ U64_MAX < v.total_protocol_paid + y * 1000 / 10000),
      if_neg (by omega :
        ¬ U64_MAX < v.total_compounded
          + (y - y * 100 / 10000 - y * 6000 / 10000 - y * 1000 / 10000)),
      if_neg (by omega : ¬ U64_MAX < v.total_caller_paid + y * 100 / 10000)]

/-- Witness for C8 at the spec's concrete yield of 1,000,000:
parts (10000, 600000, 100000, 290000). -/
theorem poke_yield_split_witness :
    (poke launchG vault0 1000000 7).map (fun r => (r.2.1, r.2.2.1, r.2.2.2.1, r.2.2.2.2))
      = .ok (10000, 600000, 100000, 290000) := by
  obtain ⟨v2, hok, _⟩ := poke_yield_split launchG vault0 1000000 7
    (by decide) (by decide) (by decide) (by decide) (by decide) (by decide) (by decide)
  rw [hok]
  rfl

/-! ## Transition lemmas for the aggregate and lifecycle invariants -/

theorem sum_map_set (f : Position → Nat) :
    ∀ (ps : List Position) (i : Nat) (x : Position) (h : i < ps.length),
      ((ps.set i x).map f).sum + f (ps.get ⟨i, h⟩) = (ps.map f).sum + f x := by
  intro ps
  induction ps with
  | nil => intro i x h; simp at h
  | cons q qs ih =>
    intro i x h
    cases i with
    | zero => simp [List.set]; omega
    | succ j =>
      simp only [List.set, List.map, List.sum_cons, List.get]
      have := ih j x (by simpa using h)
      omega

/-- Structure of a successful `create_launch`: the launch totals carry the
seed, the single creator position has all seed shares locked and zero
`sol_basis`, and both lifecycle flags start false. -/
theorem create_launch_ok {cfg : GlobalConfig} {args : CreateLaunchArgs} {now : Int}
    {st : ProgState} (h : create_launch cfg args now = .ok st) :
    st.launch.total_shares = sumShares st.positions
    ∧ st.launch.total_sol = st.launch.creator_seed_sol + sumBasis st.positions
    ∧ st.launch.graduated = false
    ∧ st.launch.refund_mode = false := by
  simp only [create_launch] at h
  by_cases h1 : cfg.paused = true
  case pos => rw [if_pos h1] at h; exact Except.noConfusion h
  rw [if_neg h1] at h
  by_cases h2 : args.name.length = 0 ∨ 50 < args.name.length
  case pos => rw [if_pos h2] at h; exact Except.noConfusion h
  rw [if_neg h2] at h
  by_cases h3 : args.symbol.length = 0 ∨ 10 < args.symbol.length
  case pos => rw [if_pos h3] at h; exact Except.noConfusion h
  rw [if_neg h3] at h
  by_cases h4 : args.uri.length = 0 ∨ 200 < args.uri.length
  case pos => rw [if_pos h4] at h; exact Except.noConfusion h
  rw [if_neg h4] at h
  by_cases h5 : args.seed_lamports = 0
  case pos => rw [if_pos h5] at h; exact Except.noConfusion h
  rw [if_neg h5] at h
  cases hm1 : usd_to_lamports cfg MIN_SEED_USD with
  | none => rw [hm1] at h; exact Except.noConfusion h
  | some min_lamports =>
  rw [hm1] at h
  simp only at h
  by_cases h6 : args.seed_lamports < min_lamports
  case pos => rw [if_pos h6] at h; exact Except.noConfusion h
  rw [if_neg h6] at h
  cases hm2 : usd_to_lamports cfg MAX_SEED_USD with
  | none => rw [hm2] at h; exact Except.noConfusion h
  | some max_lamports =>
  rw [hm2] at h
  simp only at h
  by_cases h7 : max_lamports < args.seed_lamports
  case pos => rw [if_pos h7] at h; exact Except.noConfusion h
  rw [if_neg h7] at h
  by_cases h8 : U64_MAX < args.seed_lamports * TOTAL_FEE_BPS
  case pos => rw [if_pos h8] at h; exact Except.noConfusion h
  rw [if_neg h8] at h
  by_cases h9 : args.seed_lamports < buy_total_fee args.seed_lamports
  case pos => rw [if_pos h9] at h; exact Except.noConfusion h
  rw [if_neg h9] at h
  cases hbr : buy_return (args.seed_lamports - buy_total_fee args.seed_lamports) 0 with
  | error e => rw [hbr] at h; exact Except.noConfusion h
  | ok sh =>
  rw [hbr] at h
  simp only at h
  injection h with hst
  subst hst
  simp [sumShares, sumBasis, posShares]

/-- Structure of a successful `buy`: the minted share count is positive,
launch totals and the position grow by exactly the shares and the net
(fee-deducted) amount, accrued fees grow by the tier fees, and all other
invariant-relevant fields are unchanged. -/
theorem buy_ok_state {stats : CreatorStats} {l : Launch} {p : Position}
    {amount min_shares : Nat} {now : Int} {l2 : Launch} {p2 : Position}
    (h : buy stats l p amount min_shares now = .ok (l2, p2)) :
    ∃ sh, 1 ≤ sh
      ∧ l2.total_shares = l.total_shares + sh
      ∧ l2.total_sol = l.total_sol + (amount - buy_total_fee amount)
      ∧ l2.creator_seed_sol = l.creator_seed_sol
      ∧ l2.creator_seed_shares = l.creator_seed_shares
      ∧ l2.graduated = l.graduated
      ∧ l2.refund_mode = l.refund_mode
      ∧ l2.creator_accrued_fees
          = l.creator_accrued_fees + buy_creator_fee amount (get_creator_fee_bps stats)
      ∧ l2.protocol_accrued_fees
          = l.protocol_accrued_fees + buy_protocol_fee amount (get_creator_fee_bps stats)
      ∧ p2.shares = p.shares + sh
      ∧ p2.locked_shares = p.locked_shares
      ∧ p2.sol_basis = p.sol_basis + (amount - buy_total_fee amount) := by
  simp only [buy] at h
  by_cases h1 : l.graduated = true
  case pos => rw [if_pos h1] at h; exact Except.noConfusion h
  rw [if_neg h1] at h
  by_cases h2 : l.refund_mode = true
  case pos => rw [if_pos h2] at h; exact Except.noConfusion h
  rw [if_neg h2] at h
  by_cases h3 : amount = 0
  case pos => rw [if_pos h3] at h; exact Except.noConfusion h
  rw [if_neg h3] at h
  by_cases h4 : MAX_BUY_LAMPORTS < amount
  case pos => rw [if_pos h4] at h; exact Except.noConfusion h
  rw [if_neg h4] at h
  by_cases h5 : min_shares = 0
  case pos => rw [if_pos h5] at h; exact Except.noConfusion h
  rw [if_neg h5] at h
  by_cases h6 : l.operation_in_progress = true
  case pos => rw [if_pos h6] at h; exact Except.noConfusion h
  rw [if_neg h6] at h
  by_cases h7 : U64_MAX < amount * TOTAL_FEE_BPS
  case pos => rw [if_pos h7] at h; exact Except.noConfusion h
  rw [if_neg h7] at h
  by_cases h8 : U64_MAX < amount * get_creator_fee_bps stats
  case pos => rw [if_pos h8] at h; exact Except.noConfusion h
  rw [if_neg h8] at h
  by_cases h9 : U64_MAX < amount * (TOTAL_FEE_BPS - get_creator_fee_bps stats)
  case pos => rw [if_pos h9] at h; exact Except.noConfusion h
  rw [if_neg h9] at h
  by_cases h10 : amount < buy_total_fee amount
  case pos => rw [if_pos h10] at h; exact Except.noConfusion h
  rw [if_neg h10] at h
  cases hbr : buy_return (amount - buy_total_fee amount) l.total_shares with
  | error e => rw [hbr] at h; exact Except.noConfusion h
  | ok sh =>
  rw [hbr] at h
  simp only at h
  by_cases g1 : sh < min_shares
  case pos => rw [if_pos g1] at h; exact Except.noConfusion h
  rw [if_neg g1] at h
  generalize hq : (if p.first_buy_at = 0 then { p with first_buy_at := now } else p) = p1 at h
  have hq1 : p1.shares = p.shares := by rw [← hq]; split <;> rfl
  have hq2 : p1.sol_basis = p.sol_basis := by rw [← hq]; split <;> rfl
  have hq3 : p1.locked_shares = p.locked_shares := by rw [← hq]; split <;> rfl
  by_cases g2 : U64_MAX < p1.shares + sh
  case pos => rw [if_pos g2] at h; exact Except.noConfusion h
  rw [if_neg g2] at h
  by_cases g3 : U64_MAX < p1.sol_basis + (amount - buy_total_fee amount)
  case pos => rw [if_pos g3] at h; exact Except.noConfusion h
  rw [if_neg g3] at h
  by_cases g4 : U64_MAX < l.total_shares + sh
  case pos => rw [if_pos g4] at h; exact Except.noConfusion h
  rw [if_neg g4] at h
  by_cases g5 : U64_MAX < l.total_sol + (amount - buy_total_fee amount)
  case pos => rw [if_pos g5] at h; exact Except.noConfusion h
  rw [if_neg g5] at h
  by_cases g6 : U64_MAX <
      l.creator_accrued_fees + buy_creator_fee amount (get_creator_fee_bps stats)
  case pos => rw [if_pos g6] at h; exact Except.noConfusion h
  rw [if_neg g6] at h
  by_cases g7 : U64_MAX <
      l.protocol_accrued_fees + buy_protocol_fee amount (get_creator_fee_bps stats)
  case pos => rw [if_pos g7] at h; exact Except.noConfusion h
  rw [if_neg g7] at h
  injection h with hpair
  rw [Prod.mk.injEq] at hpair
  obtain ⟨hl, hp⟩ := hpair
  subst hl
  subst hp
  exact ⟨sh, by omega, rfl, rfl, rfl, rfl, rfl, rfl, rfl, rfl,
    by simp only; omega, by simp only; omega, by simp only; omega⟩

/-- Structure of a successful `sell`: launch totals and the position shrink
by exactly the sold shares and the refund, with the subtraction guards. -/
theorem sell_ok_state {l : Launch} {p : Position}
    {shares_to_sell min_sol_out : Nat} {now : Int} {l2 : Launch} {p2 : Position}
    (h : sell l p shares_to_sell min_sol_out now = .ok (l2, p2)) :
    ∃ refund, shares_to_sell ≤ p.shares ∧ refund ≤ p.sol_basis
      ∧ shares_to_sell ≤ l.total_shares ∧ refund ≤ l.total_sol
      ∧ l2.total_shares = l.total_shares - shares_to_sell
      ∧ l2.total_sol = l.total_sol - refund
      ∧ l2.creator_seed_sol = l.creator_seed_sol
      ∧ l2.graduated = l.graduated
      ∧ l2.refund_mode = l.refund_mode
      ∧ p2.shares = p.shares - shares_to_sell
      ∧ p2.locked_shares = p.locked_shares
      ∧ p2.sol_basis = p.sol_basis - refund := by
  simp only [sell] at h
  by_cases h1 : l.graduated = true
  case pos => rw [if_pos h1] at h; exact Except.noConfusion h
  rw [if_neg h1] at h
  by_cases h2 : l.refund_mode = true
  case pos => rw [if_pos h2] at h; exact Except.noConfusion h
  rw [if_neg h2] at h
  by_cases h3 : shares_to_sell = 0
  case pos => rw [if_pos h3] at h; exact Except.noConfusion h
  rw [if_neg h3] at h
  by_cases h4 : p.shares < shares_to_sell
  case pos => rw [if_pos h4] at h; exact Except.noConfusion h
  rw [if_neg h4] at h
  by_cases h5 : p.sol_basis < min_sol_out
  case pos => rw [if_pos h5] at h; exact Except.noConfusion h
  rw [if_neg h5] at h
  by_cases h6 : l.operation_in_progress = true
  case pos => rw [if_pos h6] at h; exact Except.noConfusion h
  rw [if_neg h6] at h
  cases hsr : sell_return shares_to_sell p.shares p.sol_basis with
  | error e => rw [hsr] at h; exact Except.noConfusion h
  | ok refund =>
  rw [hsr] at h
  simp only at h
  by_cases g1 : refund < min_sol_out
  case pos => rw [if_pos g1] at h; exact Except.noConfusion h
  rw [if_neg g1] at h
  by_cases g2 : p.sol_basis < refund
  case pos => rw [if_pos g2] at h; exact Except.noConfusion h
  rw [if_neg g2] at h
  by_cases g3 : l.total_shares < shares_to_sell
  case pos => rw [if_pos g3] at h; exact Except.noConfusion h
  rw [if_neg g3] at h
  by_cases g4 : l.total_sol < refund
  case pos => rw [if_pos g4] at h; exact Except.noConfusion h
  rw [if_neg g4] at h
  injection h with hpair
  rw [Prod.mk.injEq] at hpair
  obtain ⟨hl, hp⟩ := hpair
  subst hl
  subst hp
  exact ⟨refund, by omega, by omega, by omega, by omega, rfl, rfl, rfl, rfl, rfl,
    rfl, rfl, rfl⟩

/-! ## C1: launch aggregate invariant -/

/-- C1 (amended): in every state of an active launch reachable from
`create_launch` by buy/sell sequences, `total_shares` equals the sum of
`shares + locked_shares` over live positions, and `total_sol` equals
`creator_seed_sol` plus the sum of the positions' `sol_basis` — the
creator's seed deposit is carried in the launch field `creator_seed_sol`,
while the creator position's `sol_basis` is initialized to 0, so `total_sol`
exceeds the plain basis sum by exactly the seed (see the counterexample). -/
theorem launch_aggregate_invariant :
    ∀ st, ReachBS st →
      st.launch.total_shares = sumShares st.positions
      ∧ st.launch.total_sol = st.launch.creator_seed_sol + sumBasis st.positions := by
  intro st h
  induction h with
  | created cfg args now st hok =>
    obtain ⟨a1, a2, _, _⟩ := create_launch_ok hok
    exact ⟨a1, a2⟩
  | buyStep st stats i amount min_shares now l2 p2 hi hre hbuy ih =>
    obtain ⟨sh, _, hts, hsol, hseed, _, _, _, _, _, hps, hpl, hpb⟩ := buy_ok_state hbuy
    obtain ⟨ih1, ih2⟩ := ih
    have hs1 := sum_map_set posShares st.positions i p2 hi
    have hs2 := sum_map_set Position.sol_basis st.positions i p2 hi
    have hpos : posShares p2 = posShares (st.positions.get ⟨i, hi⟩) + sh := by
      simp only [posShares]
      omega
    constructor
    · show l2.total_shares = sumShares (st.positions.set i p2)
      simp only [sumShares] at ih1 ⊢
      omega
    · show l2.total_sol = l2.creator_seed_sol + sumBasis (st.positions.set i p2)
      simp only [sumBasis] at ih2 ⊢
      omega
  | buyNew st stats amount min_shares now l2 p2 hre hbuy ih =>
    obtain ⟨sh, _, hts, hsol, hseed, _, _, _, _, _, hps, hpl, hpb⟩ := buy_ok_state hbuy
    obtain ⟨ih1, ih2⟩ := ih
    have happ1 : sumShares (st.positions ++ [p2]) = sumShares st.positions + posShares p2 := by
      simp [sumShares]
    have happ2 : sumBasis (st.positions ++ [p2]) = sumBasis st.positions + p2.sol_basis := by
      simp [sumBasis]
    have hfresh1 : freshPosition.shares = 0 := rfl
    have hfresh2 : freshPosition.locked_shares = 0 := rfl
    have hfresh3 : freshPosition.sol_basis = 0 := rfl
    have hpos : posShares p2 = sh := by
      simp only [posShares]
      omega
    constructor
    · show l2.total_shares = sumShares (st.positions ++ [p2])
      omega
    · show l2.total_sol = l2.creator_seed_sol + sumBasis (st.positions ++ [p2])
      omega
  | sellStep st i shares_to_sell min_sol_out now l2 p2 hi hre hsell ih =>
    obtain ⟨refund, hr1, hr2, hr3, hr4, hts, hsol, hseed, _, _, hps, hpl, hpb⟩ :=
      sell_ok_state hsell
    obtain ⟨ih1, ih2⟩ := ih
    have hs1 := sum_map_set posShares st.positions i p2 hi
    have hs2 := sum_map_set Position.sol_basis st.positions i p2 hi
    have hpos : posShares p2 + shares_to_sell = posShares (st.positions.get ⟨i, hi⟩) := by
      simp only [posShares]
      omega
    constructor
    · show l2.total_shares = sumShares (st.positions.set i p2)
      simp only [sumShares] at ih1 ⊢
      omega
    · show l2.total_sol = l2.creator_seed_sol + sumBasis (st.positions.set i p2)
      simp only [sumBasis] at ih2 ⊢
      omega

/-- Witness for C1 at the concrete created state. -/
theorem launch_aggregate_invariant_witness :
    createdState.launch.total_shares = sumShares createdState.positions
    ∧ createdState.launch.total_sol
      = createdState.launch.creator_seed_sol + sumBasis createdState.positions :=
  launch_aggregate_invariant createdState
    (ReachBS.created cfg0 args0 0 createdState (by decide))

/-- C1 counterexample: the claim's SOL half fails already in the reachable
state produced by `create_launch` with a 1-SOL seed at a 200 USD price: the
launch's `total_sol` is the 990,000,000-lamport net deposit while the sum of
positions' `sol_basis` is 0 (the creator position starts with zero basis). -/
theorem launch_aggregate_sol_counterexample :
    ReachBS createdState
    ∧ createdState.launch.total_sol ≠ sumBasis createdState.positions
    ∧ createdState.launch.total_sol = 990000000
    ∧ sumBasis createdState.positions = 0 :=
  ⟨ReachBS.created cfg0 args0 0 createdState (by decide), by decide, by decide, by decide⟩

/-! ## C2: lifecycle flag lemmas -/

theorem enable_refund_ok {l : Launch} {now : Int} {l2 : Launch}
    (h : enable_refund l now = .ok l2) :
    l.graduated = false ∧ l.refund_mode = false
    ∧ l2.graduated = l.graduated ∧ l2.refund_mode = true := by
  simp only [enable_refund] at h
  split_ifs at h with h1 h2 h3
  injection h with hl
  subst hl
  refine ⟨?_, ?_, rfl, rfl⟩ <;> simp_all

theorem force_graduate_ok {l : Launch} {now : Int} {l2 : Launch}
    (h : force_graduate l now = .ok l2) :
    l.graduated = false ∧ l.refund_mode = false
    ∧ l2.graduated = true ∧ l2.refund_mode = l.refund_mode := by
  simp only [force_graduate] at h
  split_ifs at h with h1 h2 h3 h4
  injection h with hl
  subst hl
  refine ⟨?_, ?_, rfl, rfl⟩ <;> simp_all

theorem claim_vesting_flags {l : Launch} {p : Position} {now : Int}
    {l2 : Launch} {p2 : Position} (h : claim_vesting l p now = .ok (l2, p2)) :
    l2.graduated = l.graduated ∧ l2.refund_mode = l.refund_mode := by
  simp only [claim_vesting] at h
  by_cases h1 : l.graduated = true
  case neg => rw [if_pos h1] at h; exact Except.noConfusion h
  rw [if_neg (not_not_intro h1)] at h
  by_cases h2 : l.operation_in_progress = true
  case pos => rw [if_pos h2] at h; exact Except.noConfusion h
  rw [if_neg h2] at h
  cases hv : l.vesting_start with
  | none => rw [hv] at h; exact Except.noConfusion h
  | some vs =>
  rw [hv] at h
  simp only at h
  by_cases h3 : now < vs
  case pos => rw [if_pos h3] at h; exact Except.noConfusion h
  rw [if_neg h3] at h
  by_cases h4 : l.creator_seed_shares - l.creator_claimed_shares = 0
  case pos => rw [if_pos h4] at h; exact Except.noConfusion h
  rw [if_neg h4] at h
  by_cases h5 : l.creator_seed_shares * (min (now - vs) VESTING_DURATION_SECONDS).toNat
      / VESTING_DURATION_SECONDS.toNat < l.creator_claimed_shares
  case pos => rw [if_pos h5] at h; exact Except.noConfusion h
  rw [if_neg h5] at h
  by_cases h6 : l.creator_seed_shares * (min (now - vs) VESTING_DURATION_SECONDS).toNat
      / VESTING_DURATION_SECONDS.toNat - l.creator_claimed_shares = 0
  case pos => rw [if_pos h6] at h; exact Except.noConfusion h
  rw [if_neg h6] at h
  by_cases h7 : p.locked_shares < l.creator_seed_shares
      * (min (now - vs) VESTING_DURATION_SECONDS).toNat
      / VESTING_DURATION_SECONDS.toNat - l.creator_claimed_shares
  case pos => rw [if_pos h7] at h; exact Except.noConfusion h
  rw [if_neg h7] at h
  by_cases h8 : U64_MAX < p.shares + (l.creator_seed_shares
      * (min (now - vs) VESTING_DURATION_SECONDS).toNat
      / VESTING_DURATION_SECONDS.toNat - l.creator_claimed_shares)
  case pos => rw [if_pos h8] at h; exact Except.noConfusion h
  rw [if_neg h8] at h
  by_cases h9 : U64_MAX < p.vested_shares_claimed + (l.creator_seed_shares
      * (min (now - vs) VESTING_DURATION_SECONDS).toNat
      / VESTING_DURATION_SECONDS.toNat - l.creator_claimed_shares)
  case pos => rw [if_pos h9] at h; exact Except.noConfusion h
  rw [if_neg h9] at h
  by_cases h10 : U64_MAX < l.creator_claimed_shares + (l.creator_seed_shares
      * (min (now - vs) VESTING_DURATION_SECONDS).toNat
      / VESTING_DURATION_SECONDS.toNat - l.creator_claimed_shares)
  case pos => rw [if_pos h10] at h; exact Except.noConfusion h
  rw [if_neg h10] at h
  injection h with hpair
  rw [Prod.mk.injEq] at hpair
  obtain ⟨hl, hp⟩ := hpair
  subst hl
  exact ⟨rfl, rfl⟩

theorem claim_refund_flags {l : Launch} {p : Position} {launch_balance rent_min : Nat}
    {l2 : Launch} {p2 : Position}
    (h : claim_refund l p launch_balance rent_min = .ok (l2, p2)) :
    l2.graduated = l.graduated ∧ l2.refund_mode = l.refund_mode := by
  simp only [claim_refund] at h
  split_ifs at h
  all_goals
    injection h with hpair
  all_goals
    rw [Prod.mk.injEq] at hpair
  all_goals
    obtain ⟨hl, hp⟩ := hpair
  all_goals
    subst hl
  all_goals
    exact ⟨rfl, rfl⟩

theorem push_refund_flags {l : Launch} {p : Position} {launch_balance rent_min : Nat}
    {l2 : Launch} (h : push_refund l p launch_balance rent_min = .ok l2) :
    l2.graduated = l.graduated ∧ l2.refund_mode = l.refund_mode := by
  simp only [push_refund] at h
  split_ifs at h
  all_goals
    injection h with hl
  all_goals
    subst hl
  all_goals
    exact ⟨rfl, rfl⟩

theorem claim_creator_fees_flags {l : Launch} {l2 : Launch}
    (h : claim_creator_fees l = .ok l2) :
    l2.graduated = l.graduated ∧ l2.refund_mode = l.refund_mode := by
  simp only [claim_creator_fees] at h
  split_ifs at h
  injection h with hl
  subst hl
  exact ⟨rfl, rfl⟩

theorem claim_tokens_flags {l : Launch} {p : Position} {is_creator : Bool}
    {l2 : Launch} {p2 : Position} (h : claim_tokens l p is_creator = .ok (l2, p2)) :
    l2.graduated = l.graduated ∧ l2.refund_mode = l.refund_mode := by
  simp only [claim_tokens] at h
  split_ifs at h
  injection h with hpair
  rw [Prod.mk.injEq] at hpair
  obtain ⟨hl, hp⟩ := hpair
  subst hl
  exact ⟨rfl, rfl⟩

theorem close_launch_flags {l : Launch} {l2 : Launch} (h : close_launch l = .ok l2) :
    l2.graduated = l.graduated ∧ l2.refund_mode = l.refund_mode := by
  simp only [close_launch] at h
  split_ifs at h
  injection h with hl
  subst hl
  exact ⟨rfl, rfl⟩

/-- Per-operation flag effect: every modelled operation either leaves both
lifecycle flags unchanged, or is enable-refund (sets `refund_mode` from an
ungraduated state), or is (force-)graduate (sets `graduated` from a
non-refunding state). -/
theorem applyLaunchOp_flags {l : Launch} {op : LaunchOp} {l2 : Launch}
    (h : applyLaunchOp l op = .ok l2) :
    (l2.graduated = l.graduated ∧ l2.refund_mode = l.refund_mode)
    ∨ (l.graduated = false ∧ l2.graduated = false ∧ l2.refund_mode = true)
    ∨ (l.refund_mode = false ∧ l2.refund_mode = false ∧ l2.graduated = true) := by
  cases op with
  | buyOp stats p amount min_shares now =>
    simp only [applyLaunchOp, Except.map] at h
    cases hb : buy stats l p amount min_shares now with
    | error e => rw [hb] at h; exact Except.noConfusion h
    | ok lp =>
      rw [hb] at h
      simp only at h
      injection h with hl
      subst hl
      obtain ⟨sh, _, _, _, _, _, hg, hr, _⟩ :=
        buy_ok_state (show buy stats l p amount min_shares now = .ok (lp.1, lp.2) from hb)
      exact Or.inl ⟨hg, hr⟩
  | sellOp p shares_to_sell min_sol_out now =>
    simp only [applyLaunchOp, Except.map] at h
    cases hb : sell l p shares_to_sell min_sol_out now with
    | error e => rw [hb] at h; exact Except.noConfusion h
    | ok lp =>
      rw [hb] at h
      simp only at h
      injection h with hl
      subst hl
      obtain ⟨refund, _, _, _, _, _, _, _, hg, hr, _⟩ :=
        sell_ok_state (show sell l p shares_to_sell min_sol_out now = .ok (lp.1, lp.2) from hb)
      exact Or.inl ⟨hg, hr⟩
  | enableRefundOp now =>
    obtain ⟨hg, _, hg2, hr2⟩ := enable_refund_ok h
    exact Or.inr (Or.inl ⟨hg, hg2.trans hg, hr2⟩)
  | forceGraduateOp now =>
    obtain ⟨_, hr, hg2, hr2⟩ := force_graduate_ok h
    exact Or.inr (Or.inr ⟨hr, hr2.trans hr, hg2⟩)
  | graduateOp now =>
    obtain ⟨_, hr, hg2, hr2⟩ := force_graduate_ok h
    exact Or.inr (Or.inr ⟨hr, hr2.trans hr, hg2⟩)
  | claimVestingOp p now =>
    simp only [applyLaunchOp, Except.map] at h
    cases hb : claim_vesting l p now with
    | error e => rw [hb] at h; exact Except.noConfusion h
    | ok lp =>
      rw [hb] at h
      simp only at h
      injection h with hl
      subst hl
      exact Or.inl (claim_vesting_flags (show claim_vesting l p now = .ok (lp.1, lp.2) from hb))
  | claimRefundOp p launch_balance rent_min =>
    simp only [applyLaunchOp, Except.map] at h
    cases hb : claim_refund l p launch_balance rent_min with
    | error e => rw [hb] at h; exact Except.noConfusion h
    | ok lp =>
      rw [hb] at h
      simp only at h
      injection h with hl
      subst hl
      exact Or.inl (claim_refund_flags
        (show claim_refund l p launch_balance rent_min = .ok (lp.1, lp.2) from hb))
  | pushRefundOp p launch_balance rent_min =>
    exact Or.inl (push_refund_flags h)
  | claimCreatorFeesOp =>
    exact Or.inl (claim_creator_fees_flags h)
  | claimTokensOp p is_creator =>
    simp only [applyLaunchOp, Except.map] at h
    cases hb : claim_tokens l p is_creator with
    | error e => rw [hb] at h; exact Except.noConfusion h
    | ok lp =>
      rw [hb] at h
      simp only at h
      injection h with hl
      subst hl
      exact Or.inl (claim_tokens_flags
        (show claim_tokens l p is_creator = .ok (lp.1, lp.2) from hb))
  | closeLaunchOp =>
    exact Or.inl (close_launch_flags h)

/-- C2: the lifecycle flags are mutually exclusive on every reachable launch
state and irreversible under every modelled operation; once `graduated`,
buy, sell and enable-refund all fail, and once `refund_mode`, graduate and
force-graduate fail. -/
theorem lifecycle_flags_correct :
    (∀ l, LReach l → ¬(l.graduated = true ∧ l.refund_mode = true))
    ∧ (∀ l op l2, applyLaunchOp l op = .ok l2 →
        (l.graduated = true → l2.graduated = true)
        ∧ (l.refund_mode = true → l2.refund_mode = true))
    ∧ (∀ l stats p amount min_shares now, l.graduated = true →
        isOkE (buy stats l p amount min_shares now) = false)
    ∧ (∀ l p shares_to_sell min_sol_out now, l.graduated = true →
        isOkE (sell l p shares_to_sell min_sol_out now) = false)
    ∧ (∀ l now, l.graduated = true → isOkE (enable_refund l now) = false)
    ∧ (∀ l now, l.refund_mode = true → isOkE (graduate l now) = false)
    ∧ (∀ l now, l.refund_mode = true → isOkE (force_graduate l now) = false) := by
  have hforce : ∀ (l : Launch) (now : Int), l.refund_mode = true →
      isOkE (force_graduate l now) = false := by
    intro l now hr
    by_cases hgr : l.graduated = true
    · have hb : force_graduate l now = .error .AlreadyGraduated := by
        simp only [force_graduate]
        rw [if_pos hgr]
      rw [hb]
      rfl
    · have hb : force_graduate l now = .error .RefundModeActive := by
        simp only [force_graduate]
        rw [if_neg hgr, if_pos hr]
      rw [hb]
      rfl
  refine ⟨?_, ?_, ?_, ?_, ?_, ?_, hforce⟩
  · intro l h
    induction h with
    | created cfg args now st hok =>
      obtain ⟨_, _, hg, hr⟩ := create_launch_ok hok
      simp [hg, hr]
    | step l op l2 hre happ ih =>
      rcases applyLaunchOp_flags happ with ⟨hg, hr⟩ | ⟨_, hg2, _⟩ | ⟨_, hr2, _⟩
      · rw [hg, hr]; exact ih
      · rintro ⟨a, _⟩; rw [hg2] at a; exact Bool.noConfusion a
      · rintro ⟨_, b⟩; rw [hr2] at b; exact Bool.noConfusion b
  · intro l op l2 happ
    rcases applyLaunchOp_flags happ with ⟨hg, hr⟩ | ⟨hgf, hg2, hr2⟩ | ⟨hrf, hr2, hg2⟩
    · exact ⟨fun a => hg.trans a, fun a => hr.trans a⟩
    · exact ⟨fun a => absurd a (by rw [hgf]; exact Bool.noConfusion), fun _ => hr2⟩
    · exact ⟨fun _ => hg2, fun a => absurd a (by rw [hrf]; exact Bool.noConfusion)⟩
  · intro l stats p amount min_shares now hg
    have hb : buy stats l p amount min_shares now = .error .AlreadyGraduated := by
      simp only [buy]
      rw [if_pos hg]
    rw [hb]
    rfl
  · intro l p shares_to_sell min_sol_out now hg
    have hb : sell l p shares_to_sell min_sol_out now = .error .AlreadyGraduated := by
      simp only [sell]
      rw [if_pos hg]
    rw [hb]
    rfl
  · intro l now hg
    have hb : enable_refund l now = .error .AlreadyGraduated := by
      simp only [enable_refund]
      rw [if_pos hg]
    rw [hb]
    rfl
  · intro l now hr
    have : graduate l now = force_graduate l now := rfl
    rw [this]
    exact hforce l now hr

/-- Witness for C2: mutual exclusion at the concrete created launch, and the
fail-closed behaviors at concrete graduated/refunding launches. -/
theorem lifecycle_flags_correct_witness :
    ¬(createdState.launch.graduated = true ∧ createdState.launch.refund_mode = true)
    ∧ isOkE (buy statsU launchG freshPosition 5 1 0) = false
    ∧ isOkE (sell launchG posG 1 0 0) = false
    ∧ isOkE (enable_refund launchG 9999999) = false
    ∧ isOkE (graduate { launchA with refund_mode := true } 0) = false
    ∧ isOkE (force_graduate { launchA with refund_mode := true } 0) = false :=
  ⟨lifecycle_flags_correct.1 createdState.launch
      (LReach.created cfg0 args0 0 createdState (by decide)),
   lifecycle_flags_correct.2.2.1 launchG statsU freshPosition 5 1 0 (by decide),
   lifecycle_flags_correct.2.2.2.1 launchG posG 1 0 0 (by decide),
   lifecycle_flags_correct.2.2.2.2.1 launchG 9999999 (by decide),
   lifecycle_flags_correct.2.2.2.2.2.1 { launchA with refund_mode := true } 0 (by decide),
   lifecycle_flags_correct.2.2.2.2.2.2 { launchA with refund_mode := true } 0 (by decide)⟩

/-! ## C7: creator seed vesting -/

/-- When the vested-to-date total equals the already-claimed count, a
claim-vesting call reports `NoSharesToClaim` (and, being an error, persists
no state). -/
theorem claim_vesting_noclaim {l : Launch} {p : Position} {now vs : Int}
    (hg : l.graduated = true) (hop : l.operation_in_progress = false)
    (hvs : l.vesting_start = some vs) (hnow : vs ≤ now)
    (heq : l.creator_seed_shares * (min (now - vs) VESTING_DURATION_SECONDS).toNat
        / VESTING_DURATION_SECONDS.toNat = l.creator_claimed_shares) :
    claim_vesting l p now = .error .NoSharesToClaim := by
  simp only [claim_vesting]
  rw [if_neg (not_not_intro hg), if_neg (by simp [hop]), hvs]
  simp only
  rw [if_neg (by omega)]
  by_cases hrem : l.creator_seed_shares - l.creator_claimed_shares = 0
  · rw [if_pos hrem]
  · rw [if_neg hrem, if_neg (by omega), if_pos (by omega)]

/-- The vested total never exceeds the seed (elapsed time is capped at the
42-day duration). -/
theorem total_vested_le_seed (S : Nat) (now vs : Int) :
    S * (min (now - vs) VESTING_DURATION_SECONDS).toNat
      / VESTING_DURATION_SECONDS.toNat ≤ S := by
  have hcap : (min (now - vs) VESTING_DURATION_SECONDS).toNat
      ≤ VESTING_DURATION_SECONDS.toNat :=
    Int.toNat_le_toNat (min_le_right _ _)
  calc S * (min (now - vs) VESTING_DURATION_SECONDS).toNat / VESTING_DURATION_SECONDS.toNat
      ≤ S * VESTING_DURATION_SECONDS.toNat / VESTING_DURATION_SECONDS.toNat :=
        Nat.div_le_div_right (Nat.mul_le_mul_left _ hcap)
    _ = S := Nat.mul_div_cancel S (by decide)

/-- When claimable is positive, a claim-vesting call moves exactly
`claimable = total_vested − already_claimed` shares from the locked bucket
to the regular bucket and advances both claimed counters. -/
theorem claim_vesting_claims {l : Launch} {p : Position} {now vs : Int}
    (hg : l.graduated = true) (hop : l.operation_in_progress = false)
    (hvs : l.vesting_start = some vs) (hnow : vs ≤ now)
    (hlock : p.locked_shares = l.creator_seed_shares - l.creator_claimed_shares)
    (hlt : l.creator_claimed_shares
      < l.creator_seed_shares * (min (now - vs) VESTING_DURATION_SECONDS).toNat
        / VESTING_DURATION_SECONDS.toNat)
    (hb1 : p.shares + l.creator_seed_shares ≤ U64_MAX)
    (hb2 : p.vested_shares_claimed + l.creator_seed_shares ≤ U64_MAX)
    (hb3 : l.creator_seed_shares ≤ U64_MAX) :
    claim_vesting l p now = .ok
      ({ l with
          creator_claimed_shares := l.creator_claimed_shares
            + (l.creator_seed_shares * (min (now - vs) VESTING_DURATION_SECONDS).toNat
              / VESTING_DURATION_SECONDS.toNat - l.creator_claimed_shares)
          operation_in_progress := false },
       { p with
          locked_shares := p.locked_shares
            - (l.creator_seed_shares * (min (now - vs) VESTING_DURATION_SECONDS).toNat
              / VESTING_DURATION_SECONDS.toNat - l.creator_claimed_shares)
          shares := p.shares
            + (l.creator_seed_shares * (min (now - vs) VESTING_DURATION_SECONDS).toNat
              / VESTING_DURATION_SECONDS.toNat - l.creator_claimed_shares)
          vested_shares_claimed := p.vested_shares_claimed
            + (l.creator_seed_shares * (min (now - vs) VESTING_DURATION_SECONDS).toNat
              / VESTING_DURATION_SECONDS.toNat - l.creator_claimed_shares)
          last_updated_at := now }) := by
  have htv := total_vested_le_seed l.creator_seed_shares now vs
  simp only [claim_vesting]
  rw [if_neg (not_not_intro hg), if_neg (by simp [hop]), hvs]
  simp only
  set tv := l.creator_seed_shares * (min (now - vs) VESTING_DURATION_SECONDS).toNat
    / VESTING_DURATION_SECONDS.toNat with htv2
  rw [if_neg (show ¬ now < vs by omega)]
  rw [if_neg (show ¬ l.creator_seed_shares - l.creator_claimed_shares = 0 by omega)]
  rw [if_neg (show ¬ tv < l.creator_claimed_shares by omega)]
  rw [if_neg (show ¬ tv - l.creator_claimed_shares = 0 by omega)]
  rw [if_neg (show ¬ p.locked_shares < tv - l.creator_claimed_shares by omega)]
  rw [if_neg (show ¬ U64_MAX < p.shares + (tv - l.creator_claimed_shares) by omega)]
  rw [if_neg (show ¬ U64_MAX < p.vested_shares_claimed + (tv - l.creator_claimed_shares)
    by omega)]
  rw [if_neg (show ¬ U64_MAX < l.creator_claimed_shares + (tv - l.creator_claimed_shares)
    by omega)]

/-- C7: with the vesting bookkeeping in lockstep (locked = seed − claimed,
claimed ≤ vested-to-date), a claim-vesting call computes
`claimable = ⌊seed · min(elapsed, 42d) / 42d⌋ − claimed`; a zero claimable
reports `NoSharesToClaim` and (errors being atomic) leaves all state
unchanged; a positive claimable unlocks exactly that many shares; and a
repeated call at the same timestamp after a successful claim reports
`NoSharesToClaim`. -/
theorem claim_vesting_schedule (l : Launch) (p : Position) (now vs : Int)
    (hg : l.graduated = true) (hop : l.operation_in_progress = false)
    (hvs : l.vesting_start = some vs) (hnow : vs ≤ now)
    (hlock : p.locked_shares = l.creator_seed_shares - l.creator_claimed_shares)
    (hcl : l.creator_claimed_shares
      ≤ l.creator_seed_shares * (min (now - vs) VESTING_DURATION_SECONDS).toNat
        / VESTING_DURATION_SECONDS.toNat)
    (hb1 : p.shares + l.creator_seed_shares ≤ U64_MAX)
    (hb2 : p.vested_shares_claimed + l.creator_seed_shares ≤ U64_MAX)
    (hb3 : l.creator_seed_shares ≤ U64_MAX) :
    (l.creator_seed_shares * (min (now - vs) VESTING_DURATION_SECONDS).toNat
        / VESTING_DURATION_SECONDS.toNat = l.creator_claimed_shares →
      claim_vesting l p now = .error .NoSharesToClaim)
    ∧ (l.creator_claimed_shares
        < l.creator_seed_shares * (min (now - vs) VESTING_DURATION_SECONDS).toNat
          / VESTING_DURATION_SECONDS.toNat →
      claim_vesting l p now = .ok
        ({ l with
            creator_claimed_shares := l.creator_claimed_shares
              + (l.creator_seed_shares * (min (now - vs) VESTING_DURATION_SECONDS).toNat
                / VESTING_DURATION_SECONDS.toNat - l.creator_claimed_shares)
            operation_in_progress := false },
         { p with
            locked_shares := p.locked_shares
              - (l.creator_seed_shares * (min (now - vs) VESTING_DURATION_SECONDS).toNat
                / VESTING_DURATION_SECONDS.toNat - l.creator_claimed_shares)
            shares := p.shares
              + (l.creator_seed_shares * (min (now - vs) VESTING_DURATION_SECONDS).toNat
                / VESTING_DURATION_SECONDS.toNat - l.creator_claimed_shares)
            vested_shares_claimed := p.vested_shares_claimed
              + (l.creator_seed_shares * (min (now - vs) VESTING_DURATION_SECONDS).toNat
                / VESTING_DURATION_SECONDS.toNat - l.creator_claimed_shares)
            last_updated_at := now }))
    ∧ (∀ l2 p2, claim_vesting l p now = .ok (l2, p2) →
        claim_vesting l2 p2 now = .error .NoSharesToClaim) := by
  refine ⟨fun heq => claim_vesting_noclaim hg hop hvs hnow heq,
          fun hlt => claim_vesting_claims hg hop hvs hnow hlock hlt hb1 hb2 hb3, ?_⟩
  intro l2 p2 hok
  by_cases hlt : l.creator_claimed_shares
      < l.creator_seed_shares * (min (now - vs) VESTING_DURATION_SECONDS).toNat
        / VESTING_DURATION_SECONDS.toNat
  · have h2 := claim_vesting_claims hg hop hvs hnow hlock hlt hb1 hb2 hb3
    rw [hok] at h2
    injection h2 with hpair
    rw [Prod.mk.injEq] at hpair
    obtain ⟨hl2, hp2⟩ := hpair
    subst hl2
    subst hp2
    exact claim_vesting_noclaim hg rfl hvs hnow
      (show l.creator_seed_shares * (min (now - vs) VESTING_DURATION_SECONDS).toNat
          / VESTING_DURATION_SECONDS.toNat
        = l.creator_claimed_shares
          + (l.creator_seed_shares * (min (now - vs) VESTING_DURATION_SECONDS).toNat
            / VESTING_DURATION_SECONDS.toNat - l.creator_claimed_shares) from by omega)
  · have heq : l.creator_seed_shares * (min (now - vs) VESTING_DURATION_SECONDS).toNat
        / VESTING_DURATION_SECONDS.toNat = l.creator_claimed_shares := by omega
    have h1 := @claim_vesting_noclaim l p now vs hg hop hvs hnow heq
    rw [hok] at h1
    exact Except.noConfusion h1

/-- Witness for C7: on `launchG` (seed 1000, vesting from 0) at 21 of 42
days, the creator claims exactly 500 shares, and an immediate repeat call
reports `NoSharesToClaim`. -/
theorem claim_vesting_schedule_witness :
    claim_vesting launchG posG 1814400 = .ok (launchGb, posGb)
    ∧ claim_vesting launchGb posGb 1814400 = .error .NoSharesToClaim := by
  have h := claim_vesting_schedule launchG posG 1814400 0 (by decide) (by decide)
    (by decide) (by decide) (by decide) (by decide) (by decide) (by decide) (by decide)
  exact ⟨by decide, h.2.2 launchGb posGb (by decide)⟩

/-! ## C10: minimum-shares-out guard on buy -/

/-- C10: on an active launch, a buy whose caller-supplied `min_shares_out`
slippage guard is zero is rejected with the validation error
`InvalidCalculation` (before any state change, errors being atomic), and
consequently every successful buy mints at least one share into both the
position and the launch total. -/
theorem buy_min_shares_guard :
    (∀ stats l p amount now, l.graduated = false → l.refund_mode = false →
      buy stats l p amount 0 now = .error .InvalidCalculation)
    ∧ (∀ stats l p amount min_shares now l2 p2,
        buy stats l p amount min_shares now = .ok (l2, p2) →
        p.shares < p2.shares ∧ l.total_shares < l2.total_shares) := by
  constructor
  · intro stats l p amount now hg hr
    simp only [buy]
    rw [if_neg (by simp [hg]), if_neg (by simp [hr])]
    by_cases h3 : amount = 0
    · rw [if_pos h3]
    · rw [if_neg h3]
      by_cases h4 : MAX_BUY_LAMPORTS < amount
      · rw [if_pos h4]
      · rw [if_neg h4, if_pos trivial]
  · intro stats l p amount min_shares now l2 p2 h
    obtain ⟨sh, h1, h2, _, _, _, _, _, _, _, hps, _, _⟩ := buy_ok_state h
    omega

/-- Witness for C10 at a concrete active launch and 0.001-SOL buy. -/
theorem buy_min_shares_guard_witness :
    buy statsU launchA freshPosition 1000000 0 7 = .error .InvalidCalculation :=
  buy_min_shares_guard.1 statsU launchA freshPosition 1000000 7 (by decide) (by decide)

end Astra
